import Mathlib

/-!
# Verification of the h264-streamer media multiplexing core

Shallow embedding of `h264_server.py` (mann1x/anycubic, `29-h264-streamer`).
Bytes are modelled as `Nat` (each byte value `< 256` where produced by the
code), byte strings as `List Nat`, Python `None` as `Option.none`, and
Python truthiness of optional byte strings (`if self.sps`) as `truthyB`.
-/

/-- `RE_NAL_START_4 = b'\x00\x00\x00\x01'` (line 40). -/
def RE_NAL_START_4 : List Nat := [0, 0, 0, 1]

/-- `RE_NAL_START_3 = b'\x00\x00\x01'` (line 41). -/
def RE_NAL_START_3 : List Nat := [0, 0, 1]

/-- Python truthiness of an optional byte string: `None` and `b''` are falsy. -/
def truthyB : Option (List Nat) → Bool
  | none => false
  | some l => !l.isEmpty

/-- `struct.pack('>H', n)`: 2-byte big-endian encoding. -/
def be16 (n : Nat) : List Nat := [(n >>> 8) &&& 255, n &&& 255]

/-- `struct.pack('>I', n)`: 4-byte big-endian encoding. -/
def be32 (n : Nat) : List Nat :=
  [(n >>> 24) &&& 255, (n >>> 16) &&& 255, (n >>> 8) &&& 255, n &&& 255]

/-- `mqtt_encode_remaining_length` (lines 200-211): MQTT variable-length
integer encoding, 7 bits per byte, continuation bit `0x80`.  The Python loop
`byte = length % 128; length //= 128; if length > 0: byte |= 0x80` is the
recursion below. -/
def mqtt_encode_remaining_length (length : Nat) : List Nat :=
  let byte := length % 128
  if _h : length / 128 > 0 then
    (byte ||| 0x80) :: mqtt_encode_remaining_length (length / 128)
  else
    [byte]
decreasing_by omega

/-- Loop of the buffer variant of `mqtt_decode_remaining_length` (lines
741-753): reads bytes at index `i` of `data`, accumulating `value` with
`multiplier`, stopping when the continuation bit is clear or data ends. -/
def mqtt_decode_rl_loop (data : List Nat) (i multiplier value : Nat) : Nat × Nat :=
  if _h : i < data.length then
    let byte := data.getD i 0
    let value' := value + (byte &&& 0x7F) * multiplier
    if byte &&& 0x80 = 0 then (value', i + 1)
    else mqtt_decode_rl_loop data (i + 1) (multiplier * 128) value'
  else (value, i)
termination_by data.length - i
decreasing_by omega

/-- `mqtt_decode_remaining_length(data, offset)` (buffer variant, lines
741-753): returns `(value, next_index)`. -/
def mqtt_decode_remaining_length (data : List Nat) (offset : Nat) : Nat × Nat :=
  mqtt_decode_rl_loop data offset 1 0

theorem mqtt_encode_eq_small {v : Nat} (h : v < 128) :
    mqtt_encode_remaining_length v = [v] := by
  rw [mqtt_encode_remaining_length]
  simp [Nat.div_eq_of_lt h, Nat.mod_eq_of_lt h]

theorem mqtt_encode_eq_large {v : Nat} (h : 128 ≤ v) :
    mqtt_encode_remaining_length v =
      (v % 128 ||| 0x80) :: mqtt_encode_remaining_length (v / 128) := by
  rw [mqtt_encode_remaining_length]
  have hd : v / 128 > 0 := Nat.div_pos h (by norm_num)
  simp [hd]

theorem land_127_of_lt (c : Nat) (h : c < 128) : c &&& 127 = c := by
  have hall : ∀ c : Fin 128, ((c : Nat) &&& 127) = c := by decide
  exact hall ⟨c, h⟩

theorem land_128_of_lt (c : Nat) (h : c < 128) : c &&& 128 = 0 := by
  have hall : ∀ c : Fin 128, ((c : Nat) &&& 128) = 0 := by decide
  exact hall ⟨c, h⟩

theorem lor_128_land_127 (c : Nat) (h : c < 128) : (c ||| 128) &&& 127 = c := by
  have hall : ∀ c : Fin 128, (((c : Nat) ||| 128) &&& 127) = c := by decide
  exact hall ⟨c, h⟩

theorem lor_128_land_128 (c : Nat) (h : c < 128) : (c ||| 128) &&& 128 = 128 := by
  have hall : ∀ c : Fin 128, (((c : Nat) ||| 128) &&& 128) = 128 := by decide
  exact hall ⟨c, h⟩

theorem mqtt_decode_rl_loop_unfold_lt {data : List Nat} {i : Nat}
    (h : i < data.length) (mult value : Nat) :
    mqtt_decode_rl_loop data i mult value =
      (if data.getD i 0 &&& 0x80 = 0 then
        (value + (data.getD i 0 &&& 0x7F) * mult, i + 1)
       else
        mqtt_decode_rl_loop data (i + 1) (mult * 128)
          (value + (data.getD i 0 &&& 0x7F) * mult)) := by
  conv_lhs => rw [mqtt_decode_rl_loop]
  simp [h]

theorem mqtt_decode_rl_loop_unfold_ge {data : List Nat} {i : Nat}
    (h : ¬ i < data.length) (mult value : Nat) :
    mqtt_decode_rl_loop data i mult value = (value, i) := by
  conv_lhs => rw [mqtt_decode_rl_loop]
  simp [h]

/-- The decode loop at index `i + 1` of `x :: l` behaves as at index `i` of
`l`, with the returned index shifted by one. -/
theorem mqtt_decode_rl_loop_cons (x : Nat) (l : List Nat) :
    ∀ (n i mult value : Nat), l.length ≤ i + n →
    mqtt_decode_rl_loop (x :: l) (i + 1) mult value =
      ((mqtt_decode_rl_loop l i mult value).1,
       (mqtt_decode_rl_loop l i mult value).2 + 1) := by
  intro n
  induction n with
  | zero =>
      intro i mult value hle
      have h1 : ¬ i < l.length := by omega
      have h2 : ¬ i + 1 < (x :: l).length := by simp [List.length_cons]; omega
      rw [mqtt_decode_rl_loop_unfold_ge h1, mqtt_decode_rl_loop_unfold_ge h2]
  | succ n ih =>
      intro i mult value hle
      by_cases h : i < l.length
      · have h' : i + 1 < (x :: l).length := by simp [List.length_cons]; omega
        rw [mqtt_decode_rl_loop_unfold_lt h', mqtt_decode_rl_loop_unfold_lt h]
        have hget : (x :: l).getD (i + 1) 0 = l.getD i 0 := by
          simp [List.getD]
        rw [hget]
        by_cases hb : l[i]?.getD 0 &&& (0x80 : Nat) = 0
        · simp [hb]
        · simp [hb]
          have hrec := ih (i + 1) (mult * 128)
            (value + (l.getD i 0 &&& 0x7F) * mult) (by omega)
          simpa using hrec
      · have h2 : ¬ i + 1 < (x :: l).length := by simp [List.length_cons]; omega
        rw [mqtt_decode_rl_loop_unfold_ge h, mqtt_decode_rl_loop_unfold_ge h2]

/-- Decoding an encoded value, starting at offset 0, with arbitrary trailing
bytes and accumulators: returns `value + v * mult` and consumes exactly the
encoded bytes. -/
theorem mqtt_decode_rl_loop_encode (v : Nat) :
    ∀ (mult value : Nat) (rest : List Nat),
      mqtt_decode_rl_loop (mqtt_encode_remaining_length v ++ rest) 0 mult value =
        (value + v * mult, (mqtt_encode_remaining_length v).length) := by
  induction v using Nat.strong_induction_on with
  | _ v ih =>
    intro mult value rest
    by_cases h : v < 128
    · rw [mqtt_encode_eq_small h]
      simp only [List.singleton_append, List.length_singleton]
      have h0 : (0 : Nat) < (v :: rest).length := by simp
      rw [mqtt_decode_rl_loop_unfold_lt h0]
      have hget : (v :: rest).getD 0 0 = v := rfl
      rw [hget, land_128_of_lt v h, land_127_of_lt v h]
      simp
    · push_neg at h
      rw [mqtt_encode_eq_large h]
      simp only [List.cons_append, List.length_cons]
      have h0 : (0 : Nat) <
          ((v % 128 ||| 0x80) :: (mqtt_encode_remaining_length (v / 128) ++ rest)).length := by
        simp
      rw [mqtt_decode_rl_loop_unfold_lt h0]
      have hget : ((v % 128 ||| 0x80) ::
          (mqtt_encode_remaining_length (v / 128) ++ rest)).getD 0 0 = v % 128 ||| 0x80 := rfl
      rw [hget]
      have hmod : v % 128 < 128 := Nat.mod_lt _ (by norm_num)
      rw [lor_128_land_128 _ hmod, lor_128_land_127 _ hmod]
      simp only [if_neg (by norm_num : (128 : Nat) ≠ 0)]
      have hdiv : v / 128 < v := Nat.div_lt_self (by omega) (by norm_num)
      rw [mqtt_decode_rl_loop_cons (v % 128 ||| 0x80)
            (mqtt_encode_remaining_length (v / 128) ++ rest)
            (mqtt_encode_remaining_length (v / 128) ++ rest).length 0 (mult * 128)
            (value + v % 128 * mult) (by omega)]
      rw [ih (v / 128) hdiv (mult * 128) (value + v % 128 * mult) rest]
      have hv : 128 * (v / 128) + v % 128 = v := Nat.div_add_mod v 128
      have harith : value + v % 128 * mult + v / 128 * (mult * 128) = value + v * mult := by
        calc value + v % 128 * mult + v / 128 * (mult * 128)
            = value + (128 * (v / 128) + v % 128) * mult := by ring
          _ = value + v * mult := by rw [hv]
      simp [harith]

/-- C3: Variable-length-integer round-trip: for every `V < 2^21`, decoding
the byte string produced by `mqtt_encode_remaining_length` at offset 0 with
the buffer variant of `mqtt_decode_remaining_length` yields exactly `V` and
consumes exactly the encoded bytes. -/
theorem mqtt_remaining_length_roundtrip (v : Nat) (_h : v < 2 ^ 21) :
    mqtt_decode_remaining_length (mqtt_encode_remaining_length v) 0 =
      (v, (mqtt_encode_remaining_length v).length) := by
  unfold mqtt_decode_remaining_length
  have hmain := mqtt_decode_rl_loop_encode v 1 0 []
  simpa using hmain

/-- Witness for C3 at the boundary values named by the claim. -/
theorem mqtt_remaining_length_roundtrip_witness :
    (2097151 < 2 ^ 21 ∧
      mqtt_decode_remaining_length (mqtt_encode_remaining_length 2097151) 0 =
        (2097151, (mqtt_encode_remaining_length 2097151).length)) ∧
    mqtt_decode_remaining_length (mqtt_encode_remaining_length 0) 0 =
        (0, (mqtt_encode_remaining_length 0).length) ∧
    mqtt_decode_remaining_length (mqtt_encode_remaining_length 127) 0 =
        (127, (mqtt_encode_remaining_length 127).length) ∧
    mqtt_decode_remaining_length (mqtt_encode_remaining_length 128) 0 =
        (128, (mqtt_encode_remaining_length 128).length) ∧
    mqtt_decode_remaining_length (mqtt_encode_remaining_length 16383) 0 =
        (16383, (mqtt_encode_remaining_length 16383).length) ∧
    mqtt_decode_remaining_length (mqtt_encode_remaining_length 16384) 0 =
        (16384, (mqtt_encode_remaining_length 16384).length) :=
  ⟨⟨by norm_num, mqtt_remaining_length_roundtrip 2097151 (by norm_num)⟩,
    mqtt_remaining_length_roundtrip 0 (by norm_num),
    mqtt_remaining_length_roundtrip 127 (by norm_num),
    mqtt_remaining_length_roundtrip 128 (by norm_num),
    mqtt_remaining_length_roundtrip 16383 (by norm_num),
    mqtt_remaining_length_roundtrip 16384 (by norm_num)⟩

/-! ## NAL unit scanning (`FLVMuxer.parse_nal_units`, lines 2063-2111) -/

/-- Python `remaining.find(pat)` on byte strings, as an `Option` (Python's
`-1` is `none`): index of the first occurrence of `pat` in `l`. -/
def bytesFind (pat : List Nat) : List Nat → Option Nat
  | [] => if pat.isPrefixOf ([] : List Nat) then some 0 else none
  | b :: rest =>
      if pat.isPrefixOf (b :: rest) then some 0
      else (bytesFind pat rest).map (· + 1)

/-- The start-code test at index `i` (lines 2072-2076): 4 if a 4-byte start
code begins at `i`, else 3 if a 3-byte one does, else 0.  Since the caller
guarantees `i + 4 < data.length`, the Python slices `data[i:i+4]` and
`data[i:i+3]` are the full-length takes below. -/
def startCodeLenAt (data : List Nat) (i : Nat) : Nat :=
  if (data.drop i).take 4 = RE_NAL_START_4 then 4
  else if (data.drop i).take 3 = RE_NAL_START_3 then 3
  else 0

/-- The combination of `idx4`/`idx3` into `end_offset` (lines 2090-2096). -/
def endOffsetOf : Option Nat → Option Nat → Option Nat
  | none, o => o
  | some a, none => some a
  | some a, some b => some (min a b)

/-- The scanning loop of `FLVMuxer.parse_nal_units` (lines 2070-2109):
`while i < data_len - 4`, locating a start code at `i`, then the next start
code in `data[start:]`, emitting the bytes between as one NAL unit. -/
def parse_nal_units_loop (data : List Nat) (i : Nat) : List (List Nat) :=
  if _h : i + 4 < data.length then
    match startCodeLenAt data i with
    | 0 => parse_nal_units_loop data (i + 1)
    | Nat.succ k =>
      let start := i + (k + 1)
      let remaining := data.drop start
      let endOff := endOffsetOf (bytesFind RE_NAL_START_4 remaining)
        (bytesFind RE_NAL_START_3 remaining)
      match endOff with
      | none => if remaining.isEmpty then [] else [remaining]
      | some e =>
          let nal := remaining.take e
          (if nal.isEmpty then [] else [nal]) ++ parse_nal_units_loop data (i + (k + 1) + e)
  else []
termination_by data.length - i
decreasing_by all_goals omega

/-- `FLVMuxer.parse_nal_units(h264_data)` (lines 2063-2111). -/
def parse_nal_units (h264_data : List Nat) : List (List Nat) :=
  parse_nal_units_loop h264_data 0

example : bytesFind RE_NAL_START_3 [5, 0, 0, 1, 9] = some 1 := by decide

example : startCodeLenAt [0, 0, 1, 9, 9] 0 = 3 := by decide

/-! ## Well-formed Annex-B buffers -/

/-- Whether a 3-byte start code `00 00 01` occurs anywhere in `l` (also
detects the tail of a 4-byte start code). -/
def containsSC3 : List Nat → Bool
  | [] => false
  | b :: rest => RE_NAL_START_3.isPrefixOf (b :: rest) || containsSC3 rest

/-- A NAL payload is clean when it is nonempty, contains no start code
(hence no `00 00 01` and no `00 00 00 01`), and does not end in a `00` byte
(which could fuse with a following start code). Real Annex-B payloads
satisfy this thanks to emulation prevention. -/
def cleanPayload (p : List Nat) : Bool :=
  !p.isEmpty && !containsSC3 p && !(p.getLast? == some 0)

/-- The start-code bytes of one unit: 4-byte `00 00 00 01` or 3-byte
`00 00 01`. -/
def scBytes (is4 : Bool) : List Nat :=
  if is4 then RE_NAL_START_4 else RE_NAL_START_3

/-- One Annex-B framed unit: start code followed by the payload. -/
def unitBytes (u : Bool × List Nat) : List Nat := scBytes u.1 ++ u.2

/-- A buffer that is the concatenation of framed NAL units. -/
def unitsBytes (us : List (Bool × List Nat)) : List Nat :=
  (us.map unitBytes).flatten

/-- The final unit survives the scanner's `while i < data_len - 4` bound
exactly when it has a 4-byte start code or a payload of at least 2 bytes. -/
def lastUnitOk (us : List (Bool × List Nat)) : Bool :=
  match us.getLast? with
  | none => true
  | some u => u.1 || decide (2 ≤ u.2.length)

/-! ### Elementwise characterizations of start-code tests -/

theorem take3_eq_iff (m : List Nat) :
    m.take 3 = RE_NAL_START_3 ↔
      (m[0]? = some 0 ∧ m[1]? = some 0 ∧ m[2]? = some 1) := by
  match m with
  | [] => simp [RE_NAL_START_3]
  | [a] => simp [RE_NAL_START_3]
  | [a, b] => simp [RE_NAL_START_3]
  | a :: b :: c :: rest => simp [RE_NAL_START_3, List.take, and_assoc]

theorem take4_eq_iff (m : List Nat) :
    m.take 4 = RE_NAL_START_4 ↔
      (m[0]? = some 0 ∧ m[1]? = some 0 ∧ m[2]? = some 0 ∧ m[3]? = some 1) := by
  match m with
  | [] => simp [RE_NAL_START_4]
  | [a] => simp [RE_NAL_START_4]
  | [a, b] => simp [RE_NAL_START_4]
  | [a, b, c] => simp [RE_NAL_START_4]
  | a :: b :: c :: d :: rest => simp [RE_NAL_START_4, List.take, and_assoc]

theorem pref3_iff (m : List Nat) :
    RE_NAL_START_3.isPrefixOf m = true ↔
      (m[0]? = some 0 ∧ m[1]? = some 0 ∧ m[2]? = some 1) := by
  rw [List.isPrefixOf_iff_prefix, List.prefix_iff_eq_take]
  have h3 : RE_NAL_START_3.length = 3 := rfl
  rw [h3, eq_comm]
  exact take3_eq_iff m

theorem pref4_iff (m : List Nat) :
    RE_NAL_START_4.isPrefixOf m = true ↔
      (m[0]? = some 0 ∧ m[1]? = some 0 ∧ m[2]? = some 0 ∧ m[3]? = some 1) := by
  rw [List.isPrefixOf_iff_prefix, List.prefix_iff_eq_take]
  have h4 : RE_NAL_START_4.length = 4 := rfl
  rw [h4, eq_comm]
  exact take4_eq_iff m

theorem window3_iff (l : List Nat) (j : Nat) :
    (l.drop j).take 3 = RE_NAL_START_3 ↔
      (l[j]? = some 0 ∧ l[j + 1]? = some 0 ∧ l[j + 2]? = some 1) := by
  rw [take3_eq_iff]
  simp [List.getElem?_drop]

theorem window4_iff (l : List Nat) (j : Nat) :
    (l.drop j).take 4 = RE_NAL_START_4 ↔
      (l[j]? = some 0 ∧ l[j + 1]? = some 0 ∧ l[j + 2]? = some 0 ∧ l[j + 3]? = some 1) := by
  rw [take4_eq_iff]
  simp [List.getElem?_drop]

/-- No start code anywhere in `p`, stated elementwise. -/
theorem containsSC3_false_no_window (p : List Nat) (h : containsSC3 p = false) :
    ∀ j, ¬ (p[j]? = some 0 ∧ p[j + 1]? = some 0 ∧ p[j + 2]? = some 1) := by
  induction p with
  | nil => intro j; simp
  | cons b rest ih =>
      rw [containsSC3] at h
      simp only [Bool.or_eq_false_iff] at h
      intro j
      cases j with
      | zero =>
          intro hw
          have hpref : RE_NAL_START_3.isPrefixOf (b :: rest) = true := by
            rw [pref3_iff]
            simpa using hw
          rw [h.1] at hpref
          exact Bool.false_ne_true hpref
      | succ k =>
          intro hw
          exact ih h.2 k (by simpa [List.getElem?_cons_succ] using hw)

/-! ### `bytesFind` characterization -/

theorem bytesFind_sound (pat : List Nat) :
    ∀ (l : List Nat) (m : Nat), bytesFind pat l = some m →
      pat.isPrefixOf (l.drop m) = true := by
  intro l
  induction l with
  | nil =>
      intro m h
      rw [bytesFind] at h
      by_cases hp : pat.isPrefixOf ([] : List Nat)
      · simp [hp] at h
        subst h
        simpa using hp
      · simp [hp] at h
  | cons b rest ih =>
      intro m h
      rw [bytesFind] at h
      by_cases hp : pat.isPrefixOf (b :: rest)
      · simp [hp] at h
        subst h
        simpa using hp
      · simp [hp] at h
        obtain ⟨k, hk, rfl⟩ := h
        simpa [List.drop_succ_cons] using ih k hk

theorem bytesFind_some_of (pat : List Nat) (hpat : pat ≠ []) :
    ∀ (l : List Nat) (k : Nat),
      pat.isPrefixOf (l.drop k) = true →
      (∀ j, j < k → pat.isPrefixOf (l.drop j) = false) →
      bytesFind pat l = some k := by
  intro l
  induction l with
  | nil =>
      intro k h1 _h2
      rw [List.drop_nil] at h1
      cases pat with
      | nil => exact absurd rfl hpat
      | cons a as => simp [List.isPrefixOf] at h1
  | cons b rest ih =>
      intro k h1 h2
      rw [bytesFind]
      cases k with
      | zero =>
          rw [List.drop_zero] at h1
          simp [h1]
      | succ k' =>
          have h0 : pat.isPrefixOf (b :: rest) = false := by
            have := h2 0 (Nat.succ_pos _)
            simpa using this
          simp only [h0, Bool.false_eq_true, if_false]
          rw [ih k' (by simpa [List.drop_succ_cons] using h1)
            (fun j hj => by simpa [List.drop_succ_cons] using h2 (j + 1) (by omega))]
          rfl

theorem bytesFind_none_of (pat : List Nat) (hpat : pat ≠ []) :
    ∀ (l : List Nat),
      (∀ j, pat.isPrefixOf (l.drop j) = false) →
      bytesFind pat l = none := by
  intro l
  induction l with
  | nil =>
      intro _h
      rw [bytesFind]
      cases pat with
      | nil => exact absurd rfl hpat
      | cons a as => simp [List.isPrefixOf]
  | cons b rest ih =>
      intro h
      rw [bytesFind]
      have h0 : pat.isPrefixOf (b :: rest) = false := by simpa using h 0
      simp only [h0, Bool.false_eq_true, if_false]
      rw [ih (fun j => by simpa [List.drop_succ_cons] using h (j + 1))]
      rfl

/-- If `pat` does not occur before index `K`, `bytesFind` is `none` or at
least `K`. -/
theorem bytesFind_lower_bound (pat l : List Nat) (K : Nat)
    (h : ∀ j, j < K → pat.isPrefixOf (l.drop j) = false) :
    bytesFind pat l = none ∨ ∃ m, bytesFind pat l = some m ∧ K ≤ m := by
  cases hf : bytesFind pat l with
  | none => exact Or.inl rfl
  | some m =>
      refine Or.inr ⟨m, rfl, ?_⟩
      by_contra hlt
      push_neg at hlt
      have hs := bytesFind_sound pat l m hf
      rw [h m hlt] at hs
      exact Bool.false_ne_true hs

/-! ### Unfold lemmas for the scanner loop -/

theorem parse_loop_unfold_ge {data : List Nat} {i : Nat}
    (h : ¬ i + 4 < data.length) :
    parse_nal_units_loop data i = [] := by
  conv_lhs => rw [parse_nal_units_loop]
  simp [h]

theorem parse_loop_unfold_skip {data : List Nat} {i : Nat}
    (h : i + 4 < data.length) (hscl : startCodeLenAt data i = 0) :
    parse_nal_units_loop data i = parse_nal_units_loop data (i + 1) := by
  conv_lhs => rw [parse_nal_units_loop]
  simp [h, hscl]

theorem parse_loop_unfold_hit {data : List Nat} {i k : Nat}
    (h : i + 4 < data.length) (hscl : startCodeLenAt data i = k + 1) :
    parse_nal_units_loop data i =
      (match endOffsetOf (bytesFind RE_NAL_START_4 (data.drop (i + (k + 1))))
          (bytesFind RE_NAL_START_3 (data.drop (i + (k + 1)))) with
      | none =>
          if (data.drop (i + (k + 1))).isEmpty then [] else [data.drop (i + (k + 1))]
      | some e =>
          (if ((data.drop (i + (k + 1))).take e).isEmpty then []
           else [(data.drop (i + (k + 1))).take e]) ++
            parse_nal_units_loop data (i + (k + 1) + e)) := by
  conv_lhs => rw [parse_nal_units_loop]
  simp only [h, dif_pos, hscl]

/-- The scanner loop depends only on the suffix of the data from `i`. -/
theorem parse_loop_eq_drop :
    ∀ (n : Nat) (data : List Nat) (i : Nat), data.length ≤ i + n →
      parse_nal_units_loop data i = parse_nal_units_loop (data.drop i) 0 := by
  intro n
  induction n with
  | zero =>
      intro data i hn
      have h1 : ¬ i + 4 < data.length := by omega
      have h2 : ¬ 0 + 4 < (data.drop i).length := by
        simp [List.length_drop]; omega
      rw [parse_loop_unfold_ge h1, parse_loop_unfold_ge h2]
  | succ n ih =>
      intro data i hn
      by_cases h : i + 4 < data.length
      · have h' : 0 + 4 < (data.drop i).length := by
          simp [List.length_drop]; omega
        have hscl : startCodeLenAt (data.drop i) 0 = startCodeLenAt data i := by
          simp [startCodeLenAt]
        cases hs : startCodeLenAt data i with
        | zero =>
            rw [parse_loop_unfold_skip h hs,
              parse_loop_unfold_skip h' (by rw [hscl, hs])]
            rw [ih data (i + 1) (by omega),
              ih (data.drop i) 1 (by simp only [List.length_drop]; omega)]
            simp [List.drop_drop]
        | succ k =>
            rw [parse_loop_unfold_hit h hs,
              parse_loop_unfold_hit h' (by rw [hscl, hs])]
            have hd : (data.drop i).drop (0 + (k + 1)) = data.drop (i + (k + 1)) := by
              simp only [List.drop_drop]
              congr 1
              omega
            rw [hd]
            cases hoff : endOffsetOf
                (bytesFind RE_NAL_START_4 (data.drop (i + (k + 1))))
                (bytesFind RE_NAL_START_3 (data.drop (i + (k + 1)))) with
            | none => rfl
            | some e =>
                dsimp only
                rw [ih data (i + (k + 1) + e) (by omega),
                  ih (data.drop i) (0 + (k + 1) + e)
                    (by simp only [List.length_drop]; omega)]
                have hde : (data.drop i).drop (0 + (k + 1) + e) =
                    data.drop (i + (k + 1) + e) := by
                  simp only [List.drop_drop]
                  congr 1
                  omega
                rw [hde]
      · have h2 : ¬ 0 + 4 < (data.drop i).length := by
          simp [List.length_drop]; omega
        rw [parse_loop_unfold_ge h, parse_loop_unfold_ge h2]

theorem take4_imp_take3_next (l : List Nat) (j : Nat)
    (h : (l.drop j).take 4 = RE_NAL_START_4) :
    (l.drop (j + 1)).take 3 = RE_NAL_START_3 := by
  rw [window4_iff] at h
  rw [window3_iff]
  exact ⟨by simpa using h.2.1, by simpa [Nat.add_assoc] using h.2.2.1,
    by simpa [Nat.add_assoc] using h.2.2.2⟩

theorem take3_imp_not_take4 (l : List Nat) (j : Nat)
    (h : (l.drop j).take 3 = RE_NAL_START_3) :
    (l.drop j).take 4 ≠ RE_NAL_START_4 := by
  rw [window3_iff] at h
  intro h4
  rw [window4_iff] at h4
  have h1 := h4.2.2.1
  rw [h.2.2] at h1
  simp at h1

/-- A buffer with no `00 00 01` window parses to no NAL units. -/
theorem parse_loop_no_sc :
    ∀ (n : Nat) (data : List Nat) (i : Nat), data.length ≤ i + n →
      (∀ j, (data.drop j).take 3 ≠ RE_NAL_START_3) →
      parse_nal_units_loop data i = [] := by
  intro n
  induction n with
  | zero =>
      intro data i hn _hno
      exact parse_loop_unfold_ge (by omega)
  | succ n ih =>
      intro data i hn hno
      by_cases h : i + 4 < data.length
      · have h4 : (data.drop i).take 4 ≠ RE_NAL_START_4 := by
          intro h4
          exact hno (i + 1) (take4_imp_take3_next data i h4)
        have hscl : startCodeLenAt data i = 0 := by
          simp [startCodeLenAt, h4, hno i]
        rw [parse_loop_unfold_skip h hscl]
        exact ih data (i + 1) (by omega) hno
      · exact parse_loop_unfold_ge h

/-! ### Clean payloads, and windows crossing a unit boundary -/

theorem pref3_take (m : List Nat) :
    RE_NAL_START_3.isPrefixOf m = true ↔ m.take 3 = RE_NAL_START_3 := by
  rw [pref3_iff, take3_eq_iff]

theorem pref4_take (m : List Nat) :
    RE_NAL_START_4.isPrefixOf m = true ↔ m.take 4 = RE_NAL_START_4 := by
  rw [pref4_iff, take4_eq_iff]

theorem clean_ne_nil {p : List Nat} (hc : cleanPayload p = true) : p ≠ [] := by
  rw [cleanPayload] at hc
  simp only [Bool.and_eq_true, Bool.not_eq_true'] at hc
  simpa [List.isEmpty_iff] using hc.1.1

theorem clean_no_sc {p : List Nat} (hc : cleanPayload p = true) :
    containsSC3 p = false := by
  rw [cleanPayload] at hc
  simp only [Bool.and_eq_true, Bool.not_eq_true'] at hc
  exact hc.1.2

theorem clean_last_ne {p : List Nat} (hc : cleanPayload p = true) :
    ¬ p[p.length - 1]? = some 0 := by
  rw [cleanPayload] at hc
  simp only [Bool.and_eq_true, Bool.not_eq_true'] at hc
  have h := hc.2
  rw [← List.getLast?_eq_getElem?]
  simpa using h

theorem clean_no_pref3 {p : List Nat} (hc : cleanPayload p = true) (j : Nat) :
    RE_NAL_START_3.isPrefixOf (p.drop j) = true → False := by
  intro htrue
  rw [pref3_iff] at htrue
  simp only [List.getElem?_drop] at htrue
  exact containsSC3_false_no_window p (clean_no_sc hc) j
    ⟨htrue.1, by simpa [Nat.add_assoc] using htrue.2.1,
      by simpa [Nat.add_assoc] using htrue.2.2⟩

theorem clean_no_pref4 {p : List Nat} (hc : cleanPayload p = true) (j : Nat) :
    RE_NAL_START_4.isPrefixOf (p.drop j) = true → False := by
  intro htrue
  rw [pref4_take] at htrue
  have h3 := take4_imp_take3_next p j htrue
  exact clean_no_pref3 hc (j + 1) (by rw [pref3_take]; exact h3)

/-- No 3-byte start-code window begins strictly inside a clean payload that
is followed by bytes starting `00 00`. -/
theorem no_window3_before (p t : List Nat) (hc : cleanPayload p = true)
    (ht0 : t[0]? = some 0) (ht1 : t[1]? = some 0) :
    ∀ j, j < p.length → ((p ++ t).drop j).take 3 ≠ RE_NAL_START_3 := by
  intro j hj hw
  rw [window3_iff] at hw
  obtain ⟨h0, h1, h2⟩ := hw
  rcases Nat.lt_or_ge (j + 2) p.length with hcase | hcase
  · rw [List.getElem?_append_left (by omega)] at h0 h1 h2
    exact containsSC3_false_no_window p (clean_no_sc hc) j ⟨h0, h1, h2⟩
  · have hd : j + 2 - p.length = 0 ∨ j + 2 - p.length = 1 := by omega
    rw [List.getElem?_append_right hcase] at h2
    rcases hd with hd | hd
    · rw [hd, ht0] at h2
      simp at h2
    · rw [hd, ht1] at h2
      simp at h2

/-- No 4-byte start-code window begins strictly inside a clean payload that
is followed by bytes starting `00 00`. -/
theorem no_window4_before (p t : List Nat) (hc : cleanPayload p = true)
    (ht0 : t[0]? = some 0) (ht1 : t[1]? = some 0) :
    ∀ j, j < p.length → ((p ++ t).drop j).take 4 ≠ RE_NAL_START_4 := by
  intro j hj hw
  have hw3 := take4_imp_take3_next (p ++ t) j hw
  rcases Nat.lt_or_ge (j + 1) p.length with hcase | hcase
  · exact no_window3_before p t hc ht0 ht1 (j + 1) hcase hw3
  · have hj1 : j + 1 = p.length := by omega
    rw [window4_iff] at hw
    have h0 := hw.1
    rw [List.getElem?_append_left hj] at h0
    have hjj : j = p.length - 1 := by omega
    rw [hjj] at h0
    exact clean_last_ne hc h0

theorem endOffsetOf_left (a : Nat) (o : Option Nat)
    (h : o = none ∨ ∃ m, o = some m ∧ a ≤ m) :
    endOffsetOf (some a) o = some a := by
  rcases h with h | ⟨m, hm, hle⟩
  · rw [h]; rfl
  · rw [hm]
    simp [endOffsetOf, Nat.min_eq_left hle]

theorem endOffsetOf_right (a : Nat) (o : Option Nat)
    (h : o = none ∨ ∃ m, o = some m ∧ a ≤ m) :
    endOffsetOf o (some a) = some a := by
  rcases h with h | ⟨m, hm, hle⟩
  · rw [h]; rfl
  · rw [hm]
    simp [endOffsetOf, Nat.min_eq_right hle]

/-! ### Scanning one framed unit -/

theorem unitsBytes_cons_shape (b : Bool) (p2 : List Nat) (rs : List (Bool × List Nat)) :
    unitsBytes ((b, p2) :: rs) = scBytes b ++ (p2 ++ unitsBytes rs) := by
  simp [unitsBytes, unitBytes, List.append_assoc]

theorem unitsBytes_cons_len (u : Bool × List Nat) (us : List (Bool × List Nat)) :
    3 ≤ (unitsBytes (u :: us)).length := by
  obtain ⟨b, p2⟩ := u
  rw [unitsBytes_cons_shape]
  cases b <;>
    simp [scBytes, RE_NAL_START_3, RE_NAL_START_4, List.length_append]

theorem unitsBytes_cons_head0 (u : Bool × List Nat) (us : List (Bool × List Nat)) :
    (unitsBytes (u :: us))[0]? = some 0 := by
  obtain ⟨b, p2⟩ := u
  rw [unitsBytes_cons_shape]
  cases b <;> simp [scBytes, RE_NAL_START_3, RE_NAL_START_4]

theorem unitsBytes_cons_head1 (u : Bool × List Nat) (us : List (Bool × List Nat)) :
    (unitsBytes (u :: us))[1]? = some 0 := by
  obtain ⟨b, p2⟩ := u
  rw [unitsBytes_cons_shape]
  cases b <;> simp [scBytes, RE_NAL_START_3, RE_NAL_START_4]

theorem re3_ne_nil : RE_NAL_START_3 ≠ [] := by simp [RE_NAL_START_3]

theorem re4_ne_nil : RE_NAL_START_4 ≠ [] := by simp [RE_NAL_START_4]

/-- `bytesFind` for the 4-byte start code in `p ++ t` when `t` begins with a
4-byte start code: hits exactly at `p.length`. -/
theorem find4_at_boundary (p t : List Nat) (hc : cleanPayload p = true)
    (ht : t.take 4 = RE_NAL_START_4) :
    bytesFind RE_NAL_START_4 (p ++ t) = some p.length := by
  have ht0 : t[0]? = some 0 := ((take4_eq_iff t).mp ht).1
  have ht1 : t[1]? = some 0 := ((take4_eq_iff t).mp ht).2.1
  apply bytesFind_some_of RE_NAL_START_4 re4_ne_nil
  · rw [pref4_take, List.drop_left' rfl]
    exact ht
  · intro j hj
    rw [Bool.eq_false_iff]
    intro htrue
    rw [pref4_take] at htrue
    exact no_window4_before p t hc ht0 ht1 j hj htrue

/-- `bytesFind` for the 3-byte start code in `p ++ t` when `t` begins with a
3-byte start code: hits exactly at `p.length`. -/
theorem find3_at_boundary (p t : List Nat) (hc : cleanPayload p = true)
    (ht : t.take 3 = RE_NAL_START_3) :
    bytesFind RE_NAL_START_3 (p ++ t) = some p.length := by
  have ht0 : t[0]? = some 0 := ((take3_eq_iff t).mp ht).1
  have ht1 : t[1]? = some 0 := ((take3_eq_iff t).mp ht).2.1
  apply bytesFind_some_of RE_NAL_START_3 re3_ne_nil
  · rw [pref3_take, List.drop_left' rfl]
    exact ht
  · intro j hj
    rw [Bool.eq_false_iff]
    intro htrue
    rw [pref3_take] at htrue
    exact no_window3_before p t hc ht0 ht1 j hj htrue

/-- The combined end offset at a unit boundary equals `p.length`, whichever
flavor of start code opens the next unit. -/
theorem endOffset_at_boundary (p t : List Nat) (hc : cleanPayload p = true)
    (ht : t.take 4 = RE_NAL_START_4 ∨ t.take 3 = RE_NAL_START_3) :
    endOffsetOf (bytesFind RE_NAL_START_4 (p ++ t))
      (bytesFind RE_NAL_START_3 (p ++ t)) = some p.length := by
  have hfacts := fun (h4 : t.take 4 = RE_NAL_START_4) => (take4_eq_iff t).mp h4
  have hfacts3 := fun (h3 : t.take 3 = RE_NAL_START_3) => (take3_eq_iff t).mp h3
  rcases ht with ht | ht
  · have ht0 : t[0]? = some 0 := (hfacts ht).1
    have ht1 : t[1]? = some 0 := (hfacts ht).2.1
    rw [find4_at_boundary p t hc ht]
    apply endOffsetOf_left
    apply bytesFind_lower_bound
    intro j hj
    rw [Bool.eq_false_iff]
    intro htrue
    rw [pref3_take] at htrue
    rcases Nat.lt_or_ge j p.length with hcase | hcase
    · exact no_window3_before p t hc ht0 ht1 j hcase htrue
    · have hje : j = p.length := by omega
      rw [hje, List.drop_left' rfl] at htrue
      have h2 := ((take3_eq_iff t).mp htrue).2.2
      rw [(hfacts ht).2.2.1] at h2
      simp at h2
  · have ht0 : t[0]? = some 0 := (hfacts3 ht).1
    have ht1 : t[1]? = some 0 := (hfacts3 ht).2.1
    rw [find3_at_boundary p t hc ht]
    apply endOffsetOf_right
    apply bytesFind_lower_bound
    intro j hj
    rw [Bool.eq_false_iff]
    intro htrue
    rw [pref4_take] at htrue
    rcases Nat.lt_or_ge j p.length with hcase | hcase
    · exact no_window4_before p t hc ht0 ht1 j hcase htrue
    · have hje : j = p.length := by omega
      rw [hje, List.drop_left' rfl] at htrue
      have h2 := ((take4_eq_iff t).mp htrue).2.2.1
      rw [(hfacts3 ht).2.2] at h2
      simp at h2

theorem startCodeLenAt_sc4 (x : List Nat) :
    startCodeLenAt (RE_NAL_START_4 ++ x) 0 = 4 := by
  have h4 : (RE_NAL_START_4 ++ x).take 4 = RE_NAL_START_4 := List.take_left' rfl
  simp [startCodeLenAt, h4]

theorem startCodeLenAt_sc3 (x : List Nat) :
    startCodeLenAt (RE_NAL_START_3 ++ x) 0 = 3 := by
  have h3 : (RE_NAL_START_3 ++ x).take 3 = RE_NAL_START_3 := List.take_left' rfl
  have h4 : (RE_NAL_START_3 ++ x).take 4 ≠ RE_NAL_START_4 := by
    have hh := take3_imp_not_take4 (RE_NAL_START_3 ++ x) 0
      (by rw [List.drop_zero]; exact h3)
    rwa [List.drop_zero] at hh
  simp [startCodeLenAt, h3, h4]

theorem take_sc_or (u : Bool × List Nat) (us : List (Bool × List Nat)) :
    (unitsBytes (u :: us)).take 4 = RE_NAL_START_4 ∨
      (unitsBytes (u :: us)).take 3 = RE_NAL_START_3 := by
  obtain ⟨b, p2⟩ := u
  rw [unitsBytes_cons_shape]
  cases b
  · right
    simp only [scBytes, Bool.false_eq_true, if_neg]
    exact List.take_left' rfl
  · left
    simp only [scBytes, if_pos rfl]
    exact List.take_left' rfl

/-- Scanning one clean unit followed by at least one more unit: the payload
is emitted and scanning resumes at the start of the next unit. -/
theorem parse_unit_cons (is4 : Bool) (p : List Nat) (r : Bool × List Nat)
    (rs : List (Bool × List Nat)) (hc : cleanPayload p = true) :
    parse_nal_units (unitsBytes ((is4, p) :: r :: rs)) =
      p :: parse_nal_units (unitsBytes (r :: rs)) := by
  have hpne : p ≠ [] := clean_ne_nil hc
  have hplen : 1 ≤ p.length := by
    cases p with
    | nil => exact absurd rfl hpne
    | cons a as => simp
  have htlen := unitsBytes_cons_len r rs
  have hpe : p.isEmpty = false := by
    rw [Bool.eq_false_iff]
    simpa [List.isEmpty_iff] using hpne
  have hor := take_sc_or r rs
  cases is4
  · -- 3-byte start code
    have hD : unitsBytes ((false, p) :: r :: rs) =
        RE_NAL_START_3 ++ (p ++ unitsBytes (r :: rs)) := by
      rw [unitsBytes_cons_shape]; rfl
    rw [hD]
    have hlen : 0 + 4 < (RE_NAL_START_3 ++ (p ++ unitsBytes (r :: rs))).length := by
      simp only [List.length_append, RE_NAL_START_3]
      simp
      omega
    have hscl : startCodeLenAt (RE_NAL_START_3 ++ (p ++ unitsBytes (r :: rs))) 0 = 2 + 1 :=
      startCodeLenAt_sc3 _
    rw [parse_nal_units, parse_loop_unfold_hit hlen hscl]
    have hdrop : (RE_NAL_START_3 ++ (p ++ unitsBytes (r :: rs))).drop (0 + (2 + 1)) =
        p ++ unitsBytes (r :: rs) := List.drop_left' rfl
    rw [hdrop]
    rw [endOffset_at_boundary p _ hc hor]
    dsimp only
    rw [List.take_left' rfl]
    rw [hpe]
    have htail : parse_nal_units_loop (RE_NAL_START_3 ++ (p ++ unitsBytes (r :: rs)))
        (0 + (2 + 1) + p.length) = parse_nal_units (unitsBytes (r :: rs)) := by
      rw [parse_loop_eq_drop ((RE_NAL_START_3 ++ (p ++ unitsBytes (r :: rs))).length) _ _
        (by omega)]
      have hassoc : RE_NAL_START_3 ++ (p ++ unitsBytes (r :: rs)) =
          (RE_NAL_START_3 ++ p) ++ unitsBytes (r :: rs) := by
        rw [List.append_assoc]
      rw [hassoc, List.drop_left' (by simp [RE_NAL_START_3]; omega)]
      rfl
    rw [htail]
    simp
  · -- 4-byte start code
    have hD : unitsBytes ((true, p) :: r :: rs) =
        RE_NAL_START_4 ++ (p ++ unitsBytes (r :: rs)) := by
      rw [unitsBytes_cons_shape]; rfl
    rw [hD]
    have hlen : 0 + 4 < (RE_NAL_START_4 ++ (p ++ unitsBytes (r :: rs))).length := by
      simp only [List.length_append, RE_NAL_START_4]
      simp
      omega
    have hscl : startCodeLenAt (RE_NAL_START_4 ++ (p ++ unitsBytes (r :: rs))) 0 = 3 + 1 :=
      startCodeLenAt_sc4 _
    rw [parse_nal_units, parse_loop_unfold_hit hlen hscl]
    have hdrop : (RE_NAL_START_4 ++ (p ++ unitsBytes (r :: rs))).drop (0 + (3 + 1)) =
        p ++ unitsBytes (r :: rs) := List.drop_left' rfl
    rw [hdrop]
    rw [endOffset_at_boundary p _ hc hor]
    dsimp only
    rw [List.take_left' rfl]
    rw [hpe]
    have htail : parse_nal_units_loop (RE_NAL_START_4 ++ (p ++ unitsBytes (r :: rs)))
        (0 + (3 + 1) + p.length) = parse_nal_units (unitsBytes (r :: rs)) := by
      rw [parse_loop_eq_drop ((RE_NAL_START_4 ++ (p ++ unitsBytes (r :: rs))).length) _ _
        (by omega)]
      have hassoc : RE_NAL_START_4 ++ (p ++ unitsBytes (r :: rs)) =
          (RE_NAL_START_4 ++ p) ++ unitsBytes (r :: rs) := by
        rw [List.append_assoc]
      rw [hassoc, List.drop_left' (by simp [RE_NAL_START_4]; omega)]
      rfl
    rw [htail]
    simp

/-- Scanning the final clean unit of a buffer: the payload is emitted
provided the unit survives the loop bound (4-byte code, or payload ≥ 2). -/
theorem parse_unit_last (is4 : Bool) (p : List Nat) (hc : cleanPayload p = true)
    (hlast : is4 = true ∨ 2 ≤ p.length) :
    parse_nal_units (unitsBytes [(is4, p)]) = [p] := by
  have hpne : p ≠ [] := clean_ne_nil hc
  have hplen : 1 ≤ p.length := by
    cases p with
    | nil => exact absurd rfl hpne
    | cons a as => simp
  have hpe : p.isEmpty = false := by
    rw [Bool.eq_false_iff]
    simpa [List.isEmpty_iff] using hpne
  have hfind3 : bytesFind RE_NAL_START_3 p = none := by
    apply bytesFind_none_of RE_NAL_START_3 re3_ne_nil
    intro j
    rw [Bool.eq_false_iff]
    exact clean_no_pref3 hc j
  have hfind4 : bytesFind RE_NAL_START_4 p = none := by
    apply bytesFind_none_of RE_NAL_START_4 re4_ne_nil
    intro j
    rw [Bool.eq_false_iff]
    exact clean_no_pref4 hc j
  cases is4
  · have hp2 : 2 ≤ p.length := by
      rcases hlast with h | h
      · exact absurd h (by simp)
      · exact h
    have hD : unitsBytes [(false, p)] = RE_NAL_START_3 ++ p := by
      simp [unitsBytes, unitBytes, scBytes]
    rw [hD]
    have hlen : 0 + 4 < (RE_NAL_START_3 ++ p).length := by
      simp only [List.length_append, RE_NAL_START_3]
      simp
      omega
    rw [parse_nal_units, parse_loop_unfold_hit hlen (startCodeLenAt_sc3 p)]
    have hdrop : (RE_NAL_START_3 ++ p).drop (0 + (2 + 1)) = p := List.drop_left' rfl
    rw [hdrop, hfind3, hfind4]
    dsimp only [endOffsetOf]
    rw [hpe]
    simp
  · have hD : unitsBytes [(true, p)] = RE_NAL_START_4 ++ p := by
      simp [unitsBytes, unitBytes, scBytes]
    rw [hD]
    have hlen : 0 + 4 < (RE_NAL_START_4 ++ p).length := by
      simp only [List.length_append, RE_NAL_START_4]
      simp
      omega
    rw [parse_nal_units, parse_loop_unfold_hit hlen (startCodeLenAt_sc4 p)]
    have hdrop : (RE_NAL_START_4 ++ p).drop (0 + (3 + 1)) = p := List.drop_left' rfl
    rw [hdrop, hfind3, hfind4]
    dsimp only [endOffsetOf]
    rw [hpe]
    simp

theorem lastUnitOk_cons_cons (u v : Bool × List Nat) (us : List (Bool × List Nat)) :
    lastUnitOk (u :: v :: us) = lastUnitOk (v :: us) := by
  simp [lastUnitOk]

/-- The scanner recovers every clean payload, in order, when the final unit
survives the loop bound. -/
theorem parse_nal_units_complete (us : List (Bool × List Nat))
    (hclean : ∀ u ∈ us, cleanPayload u.2 = true)
    (hlast : lastUnitOk us = true) :
    parse_nal_units (unitsBytes us) = us.map (fun u => u.2) := by
  induction us with
  | nil =>
      rw [show unitsBytes [] = [] from rfl, parse_nal_units]
      rw [parse_loop_unfold_ge (by simp)]
      simp
  | cons u rest ih =>
      obtain ⟨b, p⟩ := u
      have hcp : cleanPayload p = true := hclean _ (List.mem_cons_self _ _)
      cases rest with
      | nil =>
          have hl : b = true ∨ 2 ≤ p.length := by
            rw [lastUnitOk] at hlast
            simp only [List.getLast?_singleton] at hlast
            rcases Bool.or_eq_true_iff.mp hlast with h | h
            · exact Or.inl h
            · exact Or.inr (of_decide_eq_true h)
          rw [parse_unit_last b p hcp hl]
          simp
      | cons r rs =>
          rw [parse_unit_cons b p r rs hcp]
          rw [ih (fun v hv => hclean v (List.mem_cons_of_mem _ hv))
            (by rw [lastUnitOk_cons_cons] at hlast; exact hlast)]
          simp

/-- C2 (amended): for every buffer that is the concatenation of N clean
Annex-B NAL units, each prefixed by a 3- or 4-byte start code in any mix,
`parse_nal_units` returns exactly N units in original order and verbatim
(so each returned unit's first byte, and hence its low-5-bit type code,
matches the corresponding input unit) — provided the final unit either has
a 4-byte start code or a payload of at least 2 bytes.  Without that proviso
the claim is false (see the counterexample): the loop bound
`while i < data_len - 4` drops a trailing 3-byte-code unit with a 1-byte
payload. -/
theorem nal_scanner_complete_ordered (us : List (Bool × List Nat))
    (hclean : ∀ u ∈ us, cleanPayload u.2 = true)
    (hlast : lastUnitOk us = true) :
    (parse_nal_units (unitsBytes us)).length = us.length ∧
    parse_nal_units (unitsBytes us) = us.map (fun u => u.2) := by
  have h := parse_nal_units_complete us hclean hlast
  exact ⟨by rw [h]; simp, h⟩

/-- C2 counterexample: the buffer `00 00 01 41` is the concatenation of
N = 1 NAL unit (3-byte start code, clean 1-byte payload `0x41`, type code
1), yet the parser returns 0 units — not 1 as the claim requires. -/
theorem nal_scanner_drops_final_unit :
    cleanPayload [0x41] = true ∧
    unitsBytes [(false, [0x41])] = [0, 0, 1, 0x41] ∧
    parse_nal_units (unitsBytes [(false, [0x41])]) = [] ∧
    parse_nal_units (unitsBytes [(false, [0x41])]) ≠
      [(false, [0x41])].map (fun u => u.2) := by
  refine ⟨by decide, rfl, ?_, ?_⟩
  · rw [parse_nal_units]
    exact parse_loop_unfold_ge (by decide)
  · rw [parse_nal_units, parse_loop_unfold_ge (by decide)]
    simp

/-- Witness for C2 (amended) at a concrete 3-unit buffer mixing 4- and
3-byte start codes (SPS-, P- and IDR-typed payloads). -/
theorem nal_scanner_complete_ordered_witness :
    (∀ u ∈ ([(true, [0x67, 0x64, 0, 0x1f]), (false, [0x41, 2]),
        (true, [0x65, 0x88])] : List (Bool × List Nat)), cleanPayload u.2 = true) ∧
    lastUnitOk [(true, [0x67, 0x64, 0, 0x1f]), (false, [0x41, 2]),
        (true, [0x65, 0x88])] = true ∧
    (parse_nal_units (unitsBytes [(true, [0x67, 0x64, 0, 0x1f]), (false, [0x41, 2]),
        (true, [0x65, 0x88])])).length = 3 ∧
    parse_nal_units (unitsBytes [(true, [0x67, 0x64, 0, 0x1f]), (false, [0x41, 2]),
        (true, [0x65, 0x88])]) = [[0x67, 0x64, 0, 0x1f], [0x41, 2], [0x65, 0x88]] := by
  have h := nal_scanner_complete_ordered
    [(true, [0x67, 0x64, 0, 0x1f]), (false, [0x41, 2]), (true, [0x65, 0x88])]
    (by decide) (by decide)
  exact ⟨by decide, by decide, h.1, h.2⟩

/-! ## FLVMuxer (lines 1955-2178) -/

/-- State of `FLVMuxer` (constructor lines 1958-1966). `sps`/`pps` hold
Python `None` or a byte string; `has_sps_pps` is the "codec config sent"
flag; `frame_duration = 1000 // fps`. -/
structure FLVMuxer where
  width : Nat
  height : Nat
  fps : Nat
  timestamp : Nat
  frame_duration : Nat
  has_sps_pps : Bool
  sps : Option (List Nat)
  pps : Option (List Nat)
deriving DecidableEq, Repr

/-- `FLVMuxer.__init__(width, height, fps, initial_sps, initial_pps)`
(lines 1958-1966). -/
def FLVMuxer.init (width height fps : Nat)
    (initial_sps initial_pps : Option (List Nat)) : FLVMuxer :=
  { width := width, height := height, fps := fps, timestamp := 0,
    frame_duration := 1000 / fps, has_sps_pps := false,
    sps := initial_sps, pps := initial_pps }

/-- `FLVMuxer.create_tag(tag_type, data, timestamp)` (lines 2040-2061):
11-byte tag header, payload, then a 4-byte big-endian trailer equal to the
tag length before the trailer. -/
def create_tag (tag_type : Nat) (data : List Nat) (timestamp : Nat) : List Nat :=
  let data_size := data.length
  let tag := tag_type ::
    ((data_size >>> 16) &&& 0xFF) :: ((data_size >>> 8) &&& 0xFF) :: (data_size &&& 0xFF) ::
    ((timestamp >>> 16) &&& 0xFF) :: ((timestamp >>> 8) &&& 0xFF) :: (timestamp &&& 0xFF) ::
    ((timestamp >>> 24) &&& 0xFF) ::
    0 :: 0 :: 0 :: data
  tag ++ be32 tag.length

/-- `FLVMuxer.create_avc_decoder_config(sps, pps)` (lines 2113-2130),
totalized: indexing `sps[1..3]` uses `getD 0`, so this matches the Python
method only when the SPS has at least 4 bytes;
`create_avc_decoder_config_checked` below keeps the indexing fallible. -/
def create_avc_decoder_config (sps pps : List Nat) : List Nat :=
  0x01 :: sps.getD 1 0 :: sps.getD 2 0 :: sps.getD 3 0 :: 0xFF :: 0xE1 ::
    (be16 sps.length ++ sps ++ [0x01] ++ be16 pps.length ++ pps)

/-- `FLVMuxer.create_avc_decoder_config(sps, pps)` (lines 2113-2130) with
the indexing `sps[1]`, `sps[2]`, `sps[3]` kept fallible: `none` models the
`IndexError` raised at lines 2117-2119 whenever the SPS has fewer than 4
bytes. -/
def create_avc_decoder_config_checked (sps pps : List Nat) : Option (List Nat) :=
  match sps[1]?, sps[2]?, sps[3]? with
  | some profile_idc, some profile_compat, some level_idc =>
      some (0x01 :: profile_idc :: profile_compat :: level_idc :: 0xFF :: 0xE1 ::
        (be16 sps.length ++ sps ++ [0x01] ++ be16 pps.length ++ pps))
  | _, _, _ => none

/-- Body of the first loop of `mux_frame` (lines 2137-2148) for one unit:
`if not nal: continue`, then cache an SPS (type 7) or PPS (type 8). -/
def updateParamSet1 (acc : FLVMuxer) (nal : List Nat) : FLVMuxer :=
  match nal with
  | [] => acc
  | b :: rest =>
      if b &&& 0x1F = 7 then { acc with sps := some (b :: rest) }
      else if b &&& 0x1F = 8 then { acc with pps := some (b :: rest) }
      else acc

/-- First loop of `mux_frame` (lines 2137-2148): cache any SPS (type 7) or
PPS (type 8) unit into the muxer state. -/
def updateParamSets (m : FLVMuxer) (nals : List (List Nat)) : FLVMuxer :=
  nals.foldl updateParamSet1 m

/-- `FLVMuxer.mux_frame(h264_data)` (lines 2132-2178), returning the new
muxer state and the list of emitted tags (config tag and/or video tag).
The Python method returns `b''.join(tags)` and mutates `self`. -/
def mux_frame_tags (m : FLVMuxer) (h264_data : List Nat) :
    FLVMuxer × List (List Nat) :=
  let nals := parse_nal_units h264_data
  let m1 := updateParamSets m nals
  -- "Send AVC decoder config if we have SPS/PPS" (lines 2150-2159)
  let step2 : FLVMuxer × List (List Nat) :=
    if truthyB m1.sps && truthyB m1.pps && !m1.has_sps_pps then
      let config := create_avc_decoder_config (m1.sps.getD []) (m1.pps.getD [])
      ({ m1 with has_sps_pps := true },
        [create_tag 9 (0x17 :: 0x00 :: 0 :: 0 :: 0 :: config) 0])
    else (m1, [])
  let m2 := step2.1
  let tags1 := step2.2
  -- "Video NALUs" (lines 2161-2176)
  let video_nals := nals.filter (fun nal =>
    match nal with
    | [] => false
    | b :: _ => decide (¬ (b &&& 0x1F = 7 ∨ b &&& 0x1F = 8)))
  if video_nals.isEmpty then (m2, tags1)
  else
    let is_keyframe := video_nals.any (fun nal => nal.headD 0 &&& 0x1F = 5)
    let video_data := (if is_keyframe then 0x17 else 0x27) :: 0x01 :: 0 :: 0 :: 0 ::
      (video_nals.map (fun nal => be32 nal.length ++ nal)).flatten
    ({ m2 with timestamp := m2.timestamp + m2.frame_duration },
      tags1 ++ [create_tag 9 video_data m2.timestamp])

/-- `mux_frame` with the tags joined into one byte string, as returned to
the caller. -/
def mux_frame (m : FLVMuxer) (h264_data : List Nat) : FLVMuxer × List Nat :=
  let r := mux_frame_tags m h264_data
  (r.1, r.2.flatten)

/-- `FLVMuxer.mux_frame(h264_data)` (lines 2132-2178) with the config
branch's call to `create_avc_decoder_config` (line 2152) kept fallible:
`none` models the `IndexError` propagating out of `mux_frame`, aborting it
before any tag is appended and before `has_sps_pps` is set (line 2159). -/
def mux_frame_tags_checked (m : FLVMuxer) (h264_data : List Nat) :
    Option (FLVMuxer × List (List Nat)) :=
  let nals := parse_nal_units h264_data
  let m1 := updateParamSets m nals
  -- "Send AVC decoder config if we have SPS/PPS" (lines 2150-2159)
  let step2 : Option (FLVMuxer × List (List Nat)) :=
    if truthyB m1.sps && truthyB m1.pps && !m1.has_sps_pps then
      match create_avc_decoder_config_checked (m1.sps.getD []) (m1.pps.getD []) with
      | none => none
      | some config =>
          some ({ m1 with has_sps_pps := true },
            [create_tag 9 (0x17 :: 0x00 :: 0 :: 0 :: 0 :: config) 0])
    else some (m1, [])
  match step2 with
  | none => none
  | some (m2, tags1) =>
    -- "Video NALUs" (lines 2161-2176)
    let video_nals := nals.filter (fun nal =>
      match nal with
      | [] => false
      | b :: _ => decide (¬ (b &&& 0x1F = 7 ∨ b &&& 0x1F = 8)))
    if video_nals.isEmpty then some (m2, tags1)
    else
      let is_keyframe := video_nals.any (fun nal => nal.headD 0 &&& 0x1F = 5)
      let video_data := (if is_keyframe then 0x17 else 0x27) :: 0x01 :: 0 :: 0 :: 0 ::
        (video_nals.map (fun nal => be32 nal.length ++ nal)).flatten
      some ({ m2 with timestamp := m2.timestamp + m2.frame_duration },
        tags1 ++ [create_tag 9 video_data m2.timestamp])

/-- `mux_frame` with the fallible config call, tags joined into one byte
string; `none` is the `IndexError` escaping to the caller. -/
def mux_frame_checked (m : FLVMuxer) (h264_data : List Nat) :
    Option (FLVMuxer × List Nat) :=
  (mux_frame_tags_checked m h264_data).map (fun r => (r.1, r.2.flatten))

/-- With an SPS of at least 4 bytes the fallible config builder succeeds
and agrees with the totalized one. -/
theorem create_avc_decoder_config_checked_of_len (sps pps : List Nat)
    (h4 : 4 ≤ sps.length) :
    create_avc_decoder_config_checked sps pps =
      some (create_avc_decoder_config sps pps) := by
  have h1 : 1 < sps.length := by omega
  have h2 : 2 < sps.length := by omega
  have h3 : 3 < sps.length := by omega
  rw [create_avc_decoder_config_checked,
    List.getElem?_eq_getElem h1, List.getElem?_eq_getElem h2,
    List.getElem?_eq_getElem h3, create_avc_decoder_config]
  simp [List.getD_eq_getElem?_getD, List.getElem?_eq_getElem, h1, h2, h3]

/-! ## C10: config emission of a muxer seeded with cached parameter sets -/

theorem parse_no_sc_eq_nil (data : List Nat) (h : containsSC3 data = false) :
    parse_nal_units data = [] := by
  rw [parse_nal_units]
  apply parse_loop_no_sc data.length data 0 (by omega)
  intro j hw
  rw [window3_iff] at hw
  exact containsSC3_false_no_window data h j hw

/-- C10 counterexample: a muxer seeded with a nonempty but short cached SPS
(here one byte) and a nonempty cached PPS does not emit the config tag on
its first `mux_frame` call with the empty input — the config branch fires
and `create_avc_decoder_config` raises `IndexError` at line 2117
(`sps[1]`), so `mux_frame` aborts with no tag emitted and `has_sps_pps`
still `False`; the claim asserts emission for every nonempty seed pair. -/
theorem muxer_seeded_short_sps_raises :
    truthyB (some [0x67]) = true ∧ truthyB (some [0x68]) = true ∧
    mux_frame_checked (FLVMuxer.init 640 480 10 (some [0x67]) (some [0x68])) [] = none := by
  refine ⟨rfl, rfl, ?_⟩
  rw [mux_frame_checked, mux_frame_tags_checked, parse_no_sc_eq_nil [] rfl]
  rfl

/-- C10 (amended): a muxer constructed with both cached parameter sets
nonempty, the cached SPS at least 4 bytes long, emits the AVC
sequence-header tag on its first `mux_frame` call even for an input with no
start codes at all (such as the empty byte string), marking the config
sent; conversely if either cached parameter set is falsy (absent or empty),
`mux_frame` on an input with no start codes returns the empty byte string
and leaves the whole muxer state (timestamp, sps, pps, config-sent flag)
unchanged. (With a nonempty SPS shorter than 4 bytes the call instead
raises `IndexError` and emits nothing — see the counterexample.) -/
theorem muxer_seeded_config_behavior (w h fps : Nat) (data : List Nat)
    (hno : containsSC3 data = false) :
    (∀ s p : List Nat, s ≠ [] → p ≠ [] → 4 ≤ s.length →
      mux_frame_checked (FLVMuxer.init w h fps (some s) (some p)) data =
        some ({ FLVMuxer.init w h fps (some s) (some p) with has_sps_pps := true },
          create_tag 9 (0x17 :: 0x00 :: 0 :: 0 :: 0 :: create_avc_decoder_config s p) 0)) ∧
    (∀ initial_sps initial_pps : Option (List Nat),
      truthyB initial_sps = false ∨ truthyB initial_pps = false →
      mux_frame_checked (FLVMuxer.init w h fps initial_sps initial_pps) data =
        some (FLVMuxer.init w h fps initial_sps initial_pps, [])) := by
  have hparse := parse_no_sc_eq_nil data hno
  constructor
  · intro s p hs hp h4
    rw [mux_frame_checked, mux_frame_tags_checked, hparse]
    have hts : truthyB (some s) = true := by
      simp [truthyB, List.isEmpty_iff, hs]
    have htp : truthyB (some p) = true := by
      simp [truthyB, List.isEmpty_iff, hp]
    have hcfg := create_avc_decoder_config_checked_of_len s p h4
    simp [updateParamSets, FLVMuxer.init, hts, htp, hcfg, truthyB, hs, hp]
  · intro is ip hfalse
    rw [mux_frame_checked, mux_frame_tags_checked, hparse]
    have hcond : (truthyB is && truthyB ip) = false := by
      rcases hfalse with h1 | h1 <;> simp [h1]
    simp [updateParamSets, FLVMuxer.init, hcond]

/-- Witness for C10: a muxer seeded with a 4-byte SPS and a PPS emits the
config tag on the empty input; a muxer missing its PPS leaves state
unchanged and writes nothing. -/
theorem muxer_seeded_config_behavior_witness :
    containsSC3 [] = false ∧
    mux_frame_checked (FLVMuxer.init 640 480 10 (some [0x67, 0x64, 0, 0x1f]) (some [0x68, 0xEE])) [] =
      some ({ FLVMuxer.init 640 480 10 (some [0x67, 0x64, 0, 0x1f]) (some [0x68, 0xEE]) with
          has_sps_pps := true },
        create_tag 9 (0x17 :: 0x00 :: 0 :: 0 :: 0 ::
          create_avc_decoder_config [0x67, 0x64, 0, 0x1f] [0x68, 0xEE]) 0) ∧
    mux_frame_checked (FLVMuxer.init 640 480 10 (some [0x67, 0x64, 0, 0x1f]) none) [] =
      some (FLVMuxer.init 640 480 10 (some [0x67, 0x64, 0, 0x1f]) none, []) :=
  ⟨rfl,
    (muxer_seeded_config_behavior 640 480 10 [] rfl).1 _ _ (by decide) (by decide) (by decide),
    (muxer_seeded_config_behavior 640 480 10 [] rfl).2 _ _ (Or.inr rfl)⟩

/-! ## C4: the codec-config tag is emitted at most once per muxer session -/

/-- Whether one `mux_frame` call emits the AVC sequence-header tag: the
branch condition at line 2151, `if self.sps and self.pps and not
self.has_sps_pps`, evaluated after the parameter-set caching loop. -/
def configFires (m : FLVMuxer) (h264_data : List Nat) : Bool :=
  let m1 := updateParamSets m (parse_nal_units h264_data)
  truthyB m1.sps && truthyB m1.pps && !m1.has_sps_pps

/-- Number of config tags emitted over a sequence of `mux_frame` calls. -/
def muxRunConfigCount (m : FLVMuxer) : List (List Nat) → Nat
  | [] => 0
  | d :: ds =>
      (if configFires m d then 1 else 0) +
        muxRunConfigCount (mux_frame_tags m d).1 ds

theorem updateParamSet1_has (acc : FLVMuxer) (nal : List Nat) :
    (updateParamSet1 acc nal).has_sps_pps = acc.has_sps_pps := by
  match nal with
  | [] => rfl
  | b :: rest =>
      by_cases h7 : b &&& 0x1F = 7
      · simp [updateParamSet1, h7]
      · by_cases h8 : b &&& 0x1F = 8 <;> simp [updateParamSet1, h7, h8]

theorem updateParamSets_has (nals : List (List Nat)) :
    ∀ m : FLVMuxer, (updateParamSets m nals).has_sps_pps = m.has_sps_pps := by
  induction nals with
  | nil => intro m; rfl
  | cons nal rest ih =>
      intro m
      rw [updateParamSets, List.foldl_cons]
      rw [show List.foldl updateParamSet1 (updateParamSet1 m nal) rest =
        updateParamSets (updateParamSet1 m nal) rest from rfl]
      rw [ih, updateParamSet1_has]

/-- `mux_frame` sets the config-sent flag exactly when it was set before or
the config fires on this call. -/
theorem mux_frame_tags_has (m : FLVMuxer) (d : List Nat) :
    (mux_frame_tags m d).1.has_sps_pps = (m.has_sps_pps || configFires m d) := by
  rw [mux_frame_tags, configFires]
  by_cases hc : truthyB (updateParamSets m (parse_nal_units d)).sps &&
      truthyB (updateParamSets m (parse_nal_units d)).pps &&
      !(updateParamSets m (parse_nal_units d)).has_sps_pps
  · simp only [hc]
    have hh := updateParamSets_has (parse_nal_units d) m
    split <;> simp_all
  · simp only [hc]
    have hh := updateParamSets_has (parse_nal_units d) m
    split <;> simp_all

theorem configFires_false_of_has (m : FLVMuxer) (d : List Nat)
    (h : m.has_sps_pps = true) : configFires m d = false := by
  rw [configFires]
  have hh := updateParamSets_has (parse_nal_units d) m
  simp [hh, h]

theorem muxRunConfigCount_zero_of_has (inputs : List (List Nat)) :
    ∀ m : FLVMuxer, m.has_sps_pps = true → muxRunConfigCount m inputs = 0 := by
  induction inputs with
  | nil => intro m _; rfl
  | cons d ds ih =>
      intro m hm
      rw [muxRunConfigCount, configFires_false_of_has m d hm]
      rw [ih (mux_frame_tags m d).1 (by rw [mux_frame_tags_has, hm]; rfl)]
      simp

theorem updateParamSet1_id (acc : FLVMuxer) (nal : List Nat)
    (h : ¬ (nal.headD 0 &&& 0x1F = 7 ∨ nal.headD 0 &&& 0x1F = 8)) :
    updateParamSet1 acc nal = acc := by
  push_neg at h
  match nal with
  | [] => rfl
  | b :: rest =>
      simp only [List.headD_cons] at h
      simp [updateParamSet1, h.1, h.2]

theorem updateParamSets_id (nals : List (List Nat)) :
    ∀ m : FLVMuxer,
      (∀ nal ∈ nals, ¬ (nal.headD 0 &&& 0x1F = 7 ∨ nal.headD 0 &&& 0x1F = 8)) →
      updateParamSets m nals = m := by
  induction nals with
  | nil => intro m _; rfl
  | cons nal rest ih =>
      intro m hall
      rw [updateParamSets, List.foldl_cons,
        updateParamSet1_id m nal (hall nal (List.mem_cons_self _ _))]
      exact ih m (fun v hv => hall v (List.mem_cons_of_mem _ hv))

theorem mux_frame_tags_fst_fields (m : FLVMuxer) (d : List Nat) :
    (mux_frame_tags m d).1.sps = (updateParamSets m (parse_nal_units d)).sps ∧
    (mux_frame_tags m d).1.pps = (updateParamSets m (parse_nal_units d)).pps := by
  rw [mux_frame_tags]
  constructor <;> (dsimp only; split <;> split <;> rfl)

/-- C4 (amended): over any sequence of `mux_frame` calls on one muxer
instance the AVC sequence-header tag is emitted at most once; and calls
whose inputs contain only non-SPS/PPS units never emit it as long as the
muxer does not already hold both a truthy SPS and PPS (a muxer seeded with
a complete cached pair does emit the config on its first call, even on a
P-frame-only input — see the counterexample). -/
theorem muxer_config_at_most_once (inputs : List (List Nat)) :
    ∀ m : FLVMuxer,
      muxRunConfigCount m inputs ≤ 1 ∧
      ((truthyB m.sps = false ∨ truthyB m.pps = false) →
        (∀ d ∈ inputs, ∀ nal ∈ parse_nal_units d,
          ¬ (nal.headD 0 &&& 0x1F = 7 ∨ nal.headD 0 &&& 0x1F = 8)) →
        muxRunConfigCount m inputs = 0) := by
  induction inputs with
  | nil => intro m; exact ⟨by simp [muxRunConfigCount], fun _ _ => rfl⟩
  | cons d ds ih =>
      intro m
      constructor
      · rw [muxRunConfigCount]
        by_cases hf : configFires m d
        · have hzero : muxRunConfigCount (mux_frame_tags m d).1 ds = 0 := by
            apply muxRunConfigCount_zero_of_has
            rw [mux_frame_tags_has, hf]
            simp
          simp [hf, hzero]
        · have hf' : configFires m d = false := by simpa using hf
          rw [hf']
          have hle := (ih (mux_frame_tags m d).1).1
          simpa using hle
      · intro hfalsy hponly
        rw [muxRunConfigCount]
        have hid : updateParamSets m (parse_nal_units d) = m :=
          updateParamSets_id _ m (hponly d (List.mem_cons_self _ _))
        have hf : configFires m d = false := by
          rw [configFires, hid]
          rcases hfalsy with h1 | h1 <;> simp [h1]
        rw [hf]
        have hfields := mux_frame_tags_fst_fields m d
        have hrest : muxRunConfigCount (mux_frame_tags m d).1 ds = 0 := by
          apply (ih (mux_frame_tags m d).1).2
          · rw [hfields.1, hfields.2, hid]
            exact hfalsy
          · exact fun v hv => hponly v (List.mem_cons_of_mem _ hv)
        rw [hrest]
        simp

theorem parse_ex_p_only : parse_nal_units [0, 0, 0, 1, 0x41, 2] = [[0x41, 2]] := by
  have hex := parse_unit_last true [0x41, 2] (by decide) (Or.inl rfl)
  exact hex

/-- C4 counterexample: a muxer seeded with a complete cached SPS/PPS pair
emits a codec-config tag on its first `mux_frame` call although the input
contains only one P-frame unit (type 1, no SPS/PPS) and no config had been
triggered before — refuting "calls whose input contains only P-frame units
never emit a config tag when none has been triggered before". -/
theorem muxer_config_fires_on_p_only_input :
    (FLVMuxer.init 640 480 10 (some [0x67, 0x64, 0, 0x1f]) (some [0x68, 0xEE])).has_sps_pps
        = false ∧
    (∀ nal ∈ parse_nal_units [0, 0, 0, 1, 0x41, 2],
      ¬ (nal.headD 0 &&& 0x1F = 7 ∨ nal.headD 0 &&& 0x1F = 8)) ∧
    muxRunConfigCount (FLVMuxer.init 640 480 10 (some [0x67, 0x64, 0, 0x1f])
      (some [0x68, 0xEE])) [[0, 0, 0, 1, 0x41, 2]] = 1 := by
  refine ⟨rfl, ?_, ?_⟩
  · rw [parse_ex_p_only]
    decide
  · rw [muxRunConfigCount, muxRunConfigCount]
    have hf : configFires (FLVMuxer.init 640 480 10 (some [0x67, 0x64, 0, 0x1f])
        (some [0x68, 0xEE])) [0, 0, 0, 1, 0x41, 2] = true := by
      rw [configFires, parse_ex_p_only]
      decide
    rw [hf]
    simp

/-- Witness for C4 (amended) on a fresh unseeded muxer and one P-frame-only
input: both the `≤ 1` bound and the zero-count clause hold. -/
theorem muxer_config_at_most_once_witness :
    muxRunConfigCount (FLVMuxer.init 640 480 10 none none) [[0, 0, 0, 1, 0x41, 2]] ≤ 1 ∧
    muxRunConfigCount (FLVMuxer.init 640 480 10 none none) [[0, 0, 0, 1, 0x41, 2]] = 0 :=
  ⟨(muxer_config_at_most_once [[0, 0, 0, 1, 0x41, 2]] (FLVMuxer.init 640 480 10 none none)).1,
    (muxer_config_at_most_once [[0, 0, 0, 1, 0x41, 2]]
        (FLVMuxer.init 640 480 10 none none)).2 (Or.inl rfl)
      (by
        intro d hd
        simp only [List.mem_singleton] at hd
        subst hd
        rw [parse_ex_p_only]
        decide)⟩

/-! ## The FLV serve loop's marker scan (lines 4106-4125) -/

/-- The per-buffer scan of `_serve_flv_stream` (lines 4106-4125): walk the
buffer looking for start codes; for each one, read the following byte's
low 5 bits and record whether an IDR (type 5) or SPS/PPS (7/8) is present.
The start-code tests at lines 4112-4115 are the same slice comparisons as
in `parse_nal_units`, hence `startCodeLenAt`. -/
def scan_markers_loop (h264_data : List Nat) (i : Nat) (ck csp : Bool) : Bool × Bool :=
  if _h : i + 4 < h264_data.length then
    match startCodeLenAt h264_data i with
    | 0 => scan_markers_loop h264_data (i + 1) ck csp
    | Nat.succ k =>
      let nal_start := i + (k + 1)
      if nal_start < h264_data.length then
        let nal_type := h264_data.getD nal_start 0 &&& 0x1F
        if nal_type = 5 then scan_markers_loop h264_data nal_start true csp
        else if nal_type = 7 ∨ nal_type = 8 then scan_markers_loop h264_data nal_start ck true
        else scan_markers_loop h264_data nal_start ck csp
      else scan_markers_loop h264_data nal_start ck csp
  else (ck, csp)
termination_by h264_data.length - i
decreasing_by all_goals omega

/-- The whole scan with `contains_keyframe` and `contains_sps_pps` both
starting `False` (lines 4106-4108). -/
def scan_markers (h264_data : List Nat) : Bool × Bool :=
  scan_markers_loop h264_data 0 false false

theorem scan_loop_unfold_ge {data : List Nat} {i : Nat}
    (h : ¬ i + 4 < data.length) (ck csp : Bool) :
    scan_markers_loop data i ck csp = (ck, csp) := by
  conv_lhs => rw [scan_markers_loop]
  simp [h]

theorem scan_loop_unfold_skip {data : List Nat} {i : Nat}
    (h : i + 4 < data.length) (hscl : startCodeLenAt data i = 0) (ck csp : Bool) :
    scan_markers_loop data i ck csp = scan_markers_loop data (i + 1) ck csp := by
  conv_lhs => rw [scan_markers_loop]
  simp [h, hscl]

theorem scan_loop_unfold_hit {data : List Nat} {i k : Nat}
    (h : i + 4 < data.length) (hscl : startCodeLenAt data i = k + 1)
    (hns : i + (k + 1) < data.length) (ck csp : Bool) :
    scan_markers_loop data i ck csp =
      (if data.getD (i + (k + 1)) 0 &&& 0x1F = 5 then
        scan_markers_loop data (i + (k + 1)) true csp
      else if data.getD (i + (k + 1)) 0 &&& 0x1F = 7 ∨
          data.getD (i + (k + 1)) 0 &&& 0x1F = 8 then
        scan_markers_loop data (i + (k + 1)) ck true
      else scan_markers_loop data (i + (k + 1)) ck csp) := by
  conv_lhs => rw [scan_markers_loop]
  simp only [h, dif_pos, hscl, hns, if_pos]

/-- Scanning positions `[i, B)` that contain no start-code window leaves
the flags unchanged and arrives at `B`. -/
theorem scan_loop_skip_range (data : List Nat) :
    ∀ (n i B : Nat) (ck csp : Bool), B ≤ i + n → i ≤ B →
      (∀ j, i ≤ j → j < B → startCodeLenAt data j = 0) →
      scan_markers_loop data i ck csp = scan_markers_loop data B ck csp := by
  intro n
  induction n with
  | zero =>
      intro i B ck csp h1 h2 _h3
      have : i = B := by omega
      rw [this]
  | succ n ih =>
      intro i B ck csp h1 h2 h3
      rcases Nat.eq_or_lt_of_le h2 with heq | hlt
      · rw [heq]
      · by_cases hc : i + 4 < data.length
        · rw [scan_loop_unfold_skip hc (h3 i (Nat.le_refl i) hlt)]
          exact ih (i + 1) B ck csp (by omega) (by omega)
            (fun j hj1 hj2 => h3 j (by omega) hj2)
        · rw [scan_loop_unfold_ge hc]
          have hc2 : ¬ B + 4 < data.length := by omega
          rw [scan_loop_unfold_ge hc2]

/-- The scan loop depends only on the suffix of the data from `i`. -/
theorem scan_loop_eq_drop :
    ∀ (n : Nat) (data : List Nat) (i : Nat) (ck csp : Bool), data.length ≤ i + n →
      scan_markers_loop data i ck csp = scan_markers_loop (data.drop i) 0 ck csp := by
  intro n
  induction n with
  | zero =>
      intro data i ck csp hn
      have h1 : ¬ i + 4 < data.length := by omega
      have h2 : ¬ 0 + 4 < (data.drop i).length := by
        simp only [List.length_drop]; omega
      rw [scan_loop_unfold_ge h1, scan_loop_unfold_ge h2]
  | succ n ih =>
      intro data i ck csp hn
      by_cases h : i + 4 < data.length
      · have h' : 0 + 4 < (data.drop i).length := by
          simp only [List.length_drop]; omega
        have hscl : startCodeLenAt (data.drop i) 0 = startCodeLenAt data i := by
          simp [startCodeLenAt]
        cases hs : startCodeLenAt data i with
        | zero =>
            rw [scan_loop_unfold_skip h hs,
              scan_loop_unfold_skip h' (by rw [hscl, hs])]
            rw [ih data (i + 1) ck csp (by omega),
              ih (data.drop i) 1 ck csp (by simp only [List.length_drop]; omega)]
            have hdd : (data.drop i).drop 1 = data.drop (i + 1) := by
              simp [List.drop_drop]
            rw [hdd]
        | succ k =>
            have hns : i + (k + 1) < data.length ↔
                0 + (k + 1) < (data.drop i).length := by
              simp only [List.length_drop]; omega
            have hget : (data.drop i).getD (0 + (k + 1)) 0 = data.getD (i + (k + 1)) 0 := by
              simp only [List.getD_eq_getElem?_getD, List.getElem?_drop]
              congr 2
              omega
            have hdd : (data.drop i).drop (0 + (k + 1)) = data.drop (i + (k + 1)) := by
              simp only [List.drop_drop]
              congr 1
              omega
            by_cases hlt : i + (k + 1) < data.length
            · rw [scan_loop_unfold_hit h hs hlt,
                scan_loop_unfold_hit h' (by rw [hscl, hs]) (hns.mp hlt)]
              rw [hget]
              have hrec : ∀ c1 c2 : Bool,
                  scan_markers_loop data (i + (k + 1)) c1 c2 =
                    scan_markers_loop (data.drop i) (0 + (k + 1)) c1 c2 := by
                intro c1 c2
                rw [ih data (i + (k + 1)) c1 c2 (by omega),
                  ih (data.drop i) (0 + (k + 1)) c1 c2
                    (by simp only [List.length_drop]; omega)]
                rw [hdd]
              split
              · exact hrec true csp
              · split
                · exact hrec ck true
                · exact hrec ck csp
            · conv_lhs => rw [scan_markers_loop]
              conv_rhs => rw [scan_markers_loop]
              simp only [h, dif_pos, h', hs, hscl]
              have hlt2 : ¬ 0 + (k + 1) < (data.drop i).length := fun hcon =>
                hlt (hns.mpr hcon)
              simp only [hlt, hlt2, if_neg, if_false]
              rw [ih data (i + (k + 1)) ck csp (by omega),
                ih (data.drop i) (0 + (k + 1)) ck csp
                  (by simp only [List.length_drop]; omega)]
              rw [hdd]
      · have h2 : ¬ 0 + 4 < (data.drop i).length := by
          simp only [List.length_drop]; omega
        rw [scan_loop_unfold_ge h, scan_loop_unfold_ge h2]

theorem startCodeLenAt_zero_of {l : List Nat} {j : Nat}
    (h3 : (l.drop j).take 3 ≠ RE_NAL_START_3)
    (h4 : (l.drop j).take 4 ≠ RE_NAL_START_4) :
    startCodeLenAt l j = 0 := by
  simp [startCodeLenAt, h3, h4]

theorem startCodeLenAt_zero_in_payload (p t : List Nat) (hc : cleanPayload p = true)
    (ht : t = [] ∨ (t[0]? = some 0 ∧ t[1]? = some 0)) :
    ∀ j, j < p.length → startCodeLenAt (p ++ t) j = 0 := by
  intro j hj
  rcases ht with rfl | ⟨ht0, ht1⟩
  · apply startCodeLenAt_zero_of
    · rw [List.append_nil]
      intro hw
      exact clean_no_pref3 hc j (by rw [pref3_take]; exact hw)
    · rw [List.append_nil]
      intro hw
      exact clean_no_pref4 hc j (by rw [pref4_take]; exact hw)
  · exact startCodeLenAt_zero_of (no_window3_before p t hc ht0 ht1 j hj)
      (no_window4_before p t hc ht0 ht1 j hj)

theorem startCodeLenAt_shift (data : List Nat) (a j : Nat) :
    startCodeLenAt data (a + j) = startCodeLenAt (data.drop a) j := by
  simp [startCodeLenAt, List.drop_drop]

/-- Walking the marker scan over one leading framed unit: the unit's type
byte updates the flags and scanning continues at the next unit. -/
theorem scan_unit_step (b : Bool) (p t : List Nat) (hc : cleanPayload p = true)
    (hlen : 0 + 4 < (scBytes b ++ (p ++ t)).length)
    (ht : t = [] ∨ (t[0]? = some 0 ∧ t[1]? = some 0)) (ck csp : Bool) :
    scan_markers_loop (scBytes b ++ (p ++ t)) 0 ck csp =
      scan_markers_loop t 0
        (ck || decide (p.headD 0 &&& 0x1F = 5))
        (csp || decide (p.headD 0 &&& 0x1F = 7 ∨ p.headD 0 &&& 0x1F = 8)) := by
  have hpne : p ≠ [] := clean_ne_nil hc
  have hplen : 1 ≤ p.length := by
    cases p with
    | nil => exact absurd rfl hpne
    | cons a as => simp
  have hscllen : (scBytes b).length = (if b then 4 else 3) := by
    cases b <;> rfl
  -- the start-code length at position 0
  have hscl : startCodeLenAt (scBytes b ++ (p ++ t)) 0 =
      (if b then 3 else 2) + 1 := by
    cases b
    · exact startCodeLenAt_sc3 _
    · exact startCodeLenAt_sc4 _
  have hsclval : 0 + ((if b then 3 else 2) + 1) = (scBytes b).length := by
    cases b <;> rfl
  have hdropsc : (scBytes b ++ (p ++ t)).drop ((scBytes b).length) = p ++ t :=
    List.drop_left _ _
  have hlentot : (scBytes b ++ (p ++ t)).length =
      (scBytes b).length + p.length + t.length := by
    simp [List.length_append]
    omega
  have hns : 0 + ((if b then 3 else 2) + 1) < (scBytes b ++ (p ++ t)).length := by
    rw [hsclval, hlentot]
    omega
  have hget : (scBytes b ++ (p ++ t)).getD (0 + ((if b then 3 else 2) + 1)) 0 =
      p.headD 0 := by
    rw [hsclval]
    simp only [List.getD_eq_getElem?_getD]
    have hidx : (scBytes b ++ (p ++ t))[(scBytes b).length]? =
        ((scBytes b ++ (p ++ t)).drop ((scBytes b).length))[0]? := by
      rw [List.getElem?_drop]
      simp
    rw [hidx, hdropsc]
    cases p with
    | nil => exact absurd rfl hpne
    | cons hp ptl => simp
  -- after the flag update the loop sits at the start of the payload
  have hwalk : ∀ c1 c2 : Bool,
      scan_markers_loop (scBytes b ++ (p ++ t)) (0 + ((if b then 3 else 2) + 1)) c1 c2 =
        scan_markers_loop t 0 c1 c2 := by
    intro c1 c2
    rw [hsclval]
    have hskip := scan_loop_skip_range (scBytes b ++ (p ++ t))
      ((scBytes b ++ (p ++ t)).length) ((scBytes b).length)
      ((scBytes b).length + p.length) c1 c2 (by omega) (by omega)
      (fun j hj1 hj2 => by
        have hj' : j = (scBytes b).length + (j - (scBytes b).length) := by omega
        rw [hj', startCodeLenAt_shift, hdropsc]
        exact startCodeLenAt_zero_in_payload p t hc ht _ (by omega))
    rw [hskip]
    rw [scan_loop_eq_drop ((scBytes b ++ (p ++ t)).length) _ _ c1 c2 (by omega)]
    have hda : scBytes b ++ (p ++ t) = (scBytes b ++ p) ++ t := by
      rw [List.append_assoc]
    have hdt : (scBytes b ++ (p ++ t)).drop ((scBytes b).length + p.length) = t := by
      rw [hda]
      exact List.drop_left' (by simp [List.length_append])
    rw [hdt]
  rw [scan_loop_unfold_hit hlen (by rw [hscl]) hns]
  rw [hget]
  by_cases h5 : p.headD 0 &&& 0x1F = 5
  · have h78 : ¬ (p.headD 0 &&& 0x1F = 7 ∨ p.headD 0 &&& 0x1F = 8) := by
      rw [h5]; decide
    rw [if_pos h5, hwalk, decide_eq_true h5, decide_eq_false h78,
      Bool.or_true, Bool.or_false]
  · by_cases h78 : p.headD 0 &&& 0x1F = 7 ∨ p.headD 0 &&& 0x1F = 8
    · rw [if_neg h5, if_pos h78, hwalk, decide_eq_false h5, decide_eq_true h78,
        Bool.or_false, Bool.or_true]
    · rw [if_neg h5, if_neg h78, hwalk, decide_eq_false h5, decide_eq_false h78,
        Bool.or_false, Bool.or_false]

/-- The marker scan over a whole well-formed buffer reports whether any
unit has type 5 and whether any has type 7/8. -/
theorem scan_markers_loop_units (us : List (Bool × List Nat))
    (hclean : ∀ u ∈ us, cleanPayload u.2 = true)
    (hlast : lastUnitOk us = true) :
    ∀ ck csp : Bool, scan_markers_loop (unitsBytes us) 0 ck csp =
      (ck || us.any (fun u => decide (u.2.headD 0 &&& 0x1F = 5)),
       csp || us.any (fun u =>
         decide (u.2.headD 0 &&& 0x1F = 7 ∨ u.2.headD 0 &&& 0x1F = 8))) := by
  induction us with
  | nil =>
      intro ck csp
      rw [show unitsBytes [] = [] from rfl, scan_loop_unfold_ge (by simp)]
      simp
  | cons u rest ih =>
      intro ck csp
      obtain ⟨b, p⟩ := u
      have hcp : cleanPayload p = true := hclean _ (List.mem_cons_self _ _)
      have hpne : p ≠ [] := clean_ne_nil hcp
      have hplen : 1 ≤ p.length := by
        cases p with
        | nil => exact absurd rfl hpne
        | cons a as => simp
      rw [unitsBytes_cons_shape]
      have hsclen : 3 ≤ (scBytes b).length := by cases b <;> decide
      cases rest with
      | nil =>
          have hl : b = true ∨ 2 ≤ p.length := by
            rw [lastUnitOk] at hlast
            simp only [List.getLast?_singleton] at hlast
            rcases Bool.or_eq_true_iff.mp hlast with h | h
            · exact Or.inl h
            · exact Or.inr (of_decide_eq_true h)
          have hsclen' : (scBytes b).length + p.length = 4 ∨
              5 ≤ (scBytes b).length + p.length := by
            rcases hl with h | h
            · right
              have : (scBytes b).length = 4 := by rw [h]; rfl
              omega
            · cases b
              · have h3 : (scBytes false).length = 3 := rfl
                omega
              · have h4 : (scBytes true).length = 4 := rfl
                omega
          have hlen : 0 + 4 < (scBytes b ++ (p ++ unitsBytes [])).length := by
            rw [show unitsBytes ([] : List (Bool × List Nat)) = [] from rfl]
            simp only [List.append_nil, List.length_append]
            rcases hl with h | h
            · have h4 : (scBytes b).length = 4 := by rw [h]; rfl
              omega
            · omega
          rw [scan_unit_step b p (unitsBytes []) hcp hlen (Or.inl rfl) ck csp]
          rw [show unitsBytes ([] : List (Bool × List Nat)) = [] from rfl,
            scan_loop_unfold_ge (by simp)]
          simp
      | cons r rs =>
          have hlen : 0 + 4 < (scBytes b ++ (p ++ unitsBytes (r :: rs))).length := by
            have := unitsBytes_cons_len r rs
            simp only [List.length_append]
            omega
          rw [scan_unit_step b p (unitsBytes (r :: rs)) hcp hlen
            (Or.inr ⟨unitsBytes_cons_head0 r rs, unitsBytes_cons_head1 r rs⟩) ck csp]
          rw [ih (fun v hv => hclean v (List.mem_cons_of_mem _ hv))
            (by rw [lastUnitOk_cons_cons] at hlast; exact hlast)]
          simp [Bool.or_assoc]

/-- `scan_markers` over a whole well-formed buffer. -/
theorem scan_markers_units (us : List (Bool × List Nat))
    (hclean : ∀ u ∈ us, cleanPayload u.2 = true)
    (hlast : lastUnitOk us = true) :
    scan_markers (unitsBytes us) =
      (us.any (fun u => decide (u.2.headD 0 &&& 0x1F = 5)),
       us.any (fun u =>
         decide (u.2.headD 0 &&& 0x1F = 7 ∨ u.2.headD 0 &&& 0x1F = 8))) := by
  rw [scan_markers, scan_markers_loop_units us hclean hlast]
  simp

/-! ## C1: keyframe gating for a fresh FLV session -/

/-- Per-connection session state of the FLV serve loop (lines 4067-4137):
the connection's own muxer and the `sent_keyframe` gate flag. -/
structure FlvSession where
  muxer : FLVMuxer
  sent_keyframe : Bool
deriving DecidableEq, Repr

/-- One iteration of the serve loop body for a dequeued buffer
(lines 4102-4137): scan for keyframe/SPS-PPS markers; if the gate is closed
and neither marker is present, skip (write nothing); otherwise mux the
buffer, write the result if nonempty, and raise the gate after writing a
buffer that contains a keyframe. Returns the new session state and the
bytes written to the client. -/
def serveStep (s : FlvSession) (h264_data : List Nat) : FlvSession × List Nat :=
  let marks := scan_markers h264_data
  let contains_keyframe := marks.1
  let contains_sps_pps := marks.2
  if !s.sent_keyframe && !contains_keyframe && !contains_sps_pps then (s, [])
  else
    let r := mux_frame s.muxer h264_data
    if r.2.isEmpty then ({ muxer := r.1, sent_keyframe := s.sent_keyframe }, r.2)
    else ({ muxer := r.1, sent_keyframe := s.sent_keyframe || contains_keyframe }, r.2)

/-- Run the serve-loop body over a queue of buffers, collecting the bytes
written per buffer. -/
def serveRun (s : FlvSession) : List (List Nat) → FlvSession × List (List Nat)
  | [] => (s, [])
  | d :: ds =>
      let r := serveStep s d
      let rest := serveRun r.1 ds
      (rest.1, r.2 :: rest.2)

theorem mux_frame_single_p (m : FLVMuxer) (b : Bool) (p : List Nat)
    (hc : cleanPayload p = true) (hl : b = true ∨ 2 ≤ p.length)
    (h7 : ¬ p.headD 0 &&& 0x1F = 7) (h8 : ¬ p.headD 0 &&& 0x1F = 8)
    (h5 : ¬ p.headD 0 &&& 0x1F = 5)
    (hnf : (truthyB m.sps && truthyB m.pps && !m.has_sps_pps) = false) :
    mux_frame_tags m (unitsBytes [(b, p)]) =
      ({ m with timestamp := m.timestamp + m.frame_duration },
       [create_tag 9 (0x27 :: 0x01 :: 0 :: 0 :: 0 :: (be32 p.length ++ p)) m.timestamp]) := by
  have hparse : parse_nal_units (unitsBytes [(b, p)]) = [p] := parse_unit_last b p hc hl
  have hid : updateParamSets m [p] = m := by
    apply updateParamSets_id
    intro nal hnal
    rw [List.mem_singleton] at hnal
    subst hnal
    intro hor
    rcases hor with h | h
    · exact h7 h
    · exact h8 h
  rw [mux_frame_tags, hparse, hid]
  rw [hnf]
  cases p with
  | nil => exact absurd rfl (clean_ne_nil hc)
  | cons b0 tl =>
      simp only [List.headD_cons] at h7 h8 h5
      simp [List.filter_cons, h7, h8, h5, Bool.false_eq_true, List.any_cons]


theorem updateParamSet1_of7 (acc : FLVMuxer) (nal : List Nat) (hne : nal ≠ [])
    (h : nal.headD 0 &&& 0x1F = 7) :
    updateParamSet1 acc nal = { acc with sps := some nal } := by
  match nal with
  | [] => exact absurd rfl hne
  | b :: tl =>
      simp only [List.headD_cons] at h
      simp [updateParamSet1, h]

theorem updateParamSet1_of8 (acc : FLVMuxer) (nal : List Nat) (hne : nal ≠ [])
    (h : nal.headD 0 &&& 0x1F = 8) :
    updateParamSet1 acc nal = { acc with pps := some nal } := by
  match nal with
  | [] => exact absurd rfl hne
  | b :: tl =>
      simp only [List.headD_cons] at h
      simp [updateParamSet1, h]

theorem mux_frame_sps_pps_idr (m : FLVMuxer) (sps pps idr : List Nat)
    (hcs : cleanPayload sps = true) (hcp : cleanPayload pps = true)
    (hci : cleanPayload idr = true)
    (hts : sps.headD 0 &&& 0x1F = 7) (htp : pps.headD 0 &&& 0x1F = 8)
    (hti : idr.headD 0 &&& 0x1F = 5)
    (hm : m.has_sps_pps = false) :
    mux_frame_tags m (unitsBytes [(true, sps), (true, pps), (true, idr)]) =
      ({ m with
          sps := some sps, pps := some pps, has_sps_pps := true,
          timestamp := m.timestamp + m.frame_duration },
       [create_tag 9 (0x17 :: 0x00 :: 0 :: 0 :: 0 :: create_avc_decoder_config sps pps) 0,
        create_tag 9 (0x17 :: 0x01 :: 0 :: 0 :: 0 :: (be32 idr.length ++ idr)) m.timestamp]) := by
  have hparse : parse_nal_units (unitsBytes [(true, sps), (true, pps), (true, idr)]) =
      [sps, pps, idr] := by
    have h := parse_nal_units_complete [(true, sps), (true, pps), (true, idr)]
      (by
        intro u hu
        simp only [List.mem_cons] at hu
        rcases hu with rfl | rfl | rfl | hfalse
        · exact hcs
        · exact hcp
        · exact hci
        · exact absurd hfalse (List.not_mem_nil u))
      (by simp [lastUnitOk])
    simpa using h
  have hid7 : ¬ (idr.headD 0 &&& 0x1F = 7 ∨ idr.headD 0 &&& 0x1F = 8) := by
    rw [hti]; decide
  have hupd : updateParamSets m [sps, pps, idr] =
      { m with sps := some sps, pps := some pps } := by
    rw [updateParamSets]
    simp only [List.foldl_cons, List.foldl_nil]
    rw [updateParamSet1_of7 m sps (clean_ne_nil hcs) hts,
      updateParamSet1_of8 _ pps (clean_ne_nil hcp) htp,
      updateParamSet1_id _ idr hid7]
  have htruthyS : truthyB (some sps) = true := by
    simp [truthyB, List.isEmpty_iff, clean_ne_nil hcs]
  have htruthyP : truthyB (some pps) = true := by
    simp [truthyB, List.isEmpty_iff, clean_ne_nil hcp]
  rw [mux_frame_tags, hparse, hupd]
  obtain ⟨bs, stl, hseq⟩ : ∃ a l, sps = a :: l := by
    cases hx : sps with
    | nil => exact absurd hx (clean_ne_nil hcs)
    | cons a l => exact ⟨a, l, rfl⟩
  obtain ⟨bp, ptl, hpeq⟩ : ∃ a l, pps = a :: l := by
    cases hx : pps with
    | nil => exact absurd hx (clean_ne_nil hcp)
    | cons a l => exact ⟨a, l, rfl⟩
  obtain ⟨bi, itl, hieq⟩ : ∃ a l, idr = a :: l := by
    cases hx : idr with
    | nil => exact absurd hx (clean_ne_nil hci)
    | cons a l => exact ⟨a, l, rfl⟩
  subst hseq hpeq hieq
  simp only [List.headD_cons] at hts htp hti
  simp [htruthyS, htruthyP, hm, List.filter_cons, hts, htp, hti,
    List.any_cons, truthyB]

theorem create_tag_isEmpty (tag_type : Nat) (data : List Nat) (ts : Nat) :
    (create_tag tag_type data ts).isEmpty = false := by
  simp [create_tag]

theorem create_tag_ne_nil (tag_type : Nat) (data : List Nat) (ts : Nat) :
    create_tag tag_type data ts ≠ [] := by
  simp [create_tag]

theorem serveRun_cons (s : FlvSession) (d : List Nat) (ds : List (List Nat)) :
    serveRun s (d :: ds) =
      ((serveRun (serveStep s d).1 ds).1,
       (serveStep s d).2 :: (serveRun (serveStep s d).1 ds).2) := rfl

theorem serveRun_nil (s : FlvSession) : serveRun s [] = (s, []) := rfl

/-- Marker scan of a single-unit buffer holding a non-IDR slice (type 1):
no keyframe, no SPS/PPS. -/
theorem scan_markers_single_p (p : List Nat) (hc : cleanPayload p = true)
    (ht : p.headD 0 &&& 0x1F = 1) :
    scan_markers (unitsBytes [(true, p)]) = (false, false) := by
  rw [scan_markers_units [(true, p)]
    (by intro u hu; simp only [List.mem_singleton] at hu; subst hu; exact hc)
    (by simp [lastUnitOk])]
  simp only [List.headD_eq_head?_getD] at ht
  simp
  omega

/-- While the keyframe gate is closed, a buffer with neither keyframe nor
SPS/PPS markers is skipped without writing anything or touching state. -/
theorem serveStep_skip (s : FlvSession) (hsk : s.sent_keyframe = false)
    (d : List Nat) (hscan : scan_markers d = (false, false)) :
    serveStep s d = (s, []) := by
  simp [serveStep, hscan, hsk]

theorem scan_markers_sps_pps_idr (sps pps idr : List Nat)
    (hcs : cleanPayload sps = true) (hcp : cleanPayload pps = true)
    (hci : cleanPayload idr = true)
    (hts : sps.headD 0 &&& 0x1F = 7) (htp : pps.headD 0 &&& 0x1F = 8)
    (hti : idr.headD 0 &&& 0x1F = 5) :
    scan_markers (unitsBytes [(true, sps), (true, pps), (true, idr)]) = (true, true) := by
  rw [scan_markers_units [(true, sps), (true, pps), (true, idr)]
    (by
      intro u hu
      simp only [List.mem_cons] at hu
      rcases hu with rfl | rfl | rfl | hfalse
      · exact hcs
      · exact hcp
      · exact hci
      · exact absurd hfalse (List.not_mem_nil u))
    (by simp [lastUnitOk])]
  simp only [List.headD_eq_head?_getD] at hts htp hti
  simp [hts, htp, hti]

/-- C1: a freshly constructed FLV session with no cached SPS/PPS, fed the
four buffers [P-frame, P-frame, SPS+PPS+IDR, P-frame], writes exactly 0
bytes for the first two buffers, exactly two FLV tags — the AVC
sequence-header (config) tag followed by one keyframe video tag — for the
third buffer, and exactly one (inter-frame) video tag for the fourth. -/
theorem flv_fresh_session_keyframe_gate (w hgt : Nat)
    (p1 p2 sps pps idr p4 : List Nat)
    (hc1 : cleanPayload p1 = true) (ht1 : p1.headD 0 &&& 0x1F = 1)
    (hc2 : cleanPayload p2 = true) (ht2 : p2.headD 0 &&& 0x1F = 1)
    (hcs : cleanPayload sps = true) (hts : sps.headD 0 &&& 0x1F = 7)
    (_hlen_sps : 4 ≤ sps.length)
    (hcp : cleanPayload pps = true) (htp : pps.headD 0 &&& 0x1F = 8)
    (hci : cleanPayload idr = true) (hti : idr.headD 0 &&& 0x1F = 5)
    (hc4 : cleanPayload p4 = true) (ht4 : p4.headD 0 &&& 0x1F = 1) :
    (serveRun ⟨FLVMuxer.init w hgt 10 none none, false⟩
        [unitsBytes [(true, p1)], unitsBytes [(true, p2)],
         unitsBytes [(true, sps), (true, pps), (true, idr)],
         unitsBytes [(true, p4)]]).2 =
      [[], [],
       create_tag 9 (0x17 :: 0x00 :: 0 :: 0 :: 0 :: create_avc_decoder_config sps pps) 0 ++
         create_tag 9 (0x17 :: 0x01 :: 0 :: 0 :: 0 :: (be32 idr.length ++ idr)) 0,
       create_tag 9 (0x27 :: 0x01 :: 0 :: 0 :: 0 :: (be32 p4.length ++ p4)) 100] := by
  have hstep1 : serveStep ⟨FLVMuxer.init w hgt 10 none none, false⟩
      (unitsBytes [(true, p1)]) = (⟨FLVMuxer.init w hgt 10 none none, false⟩, []) :=
    serveStep_skip _ rfl _ (scan_markers_single_p p1 hc1 ht1)
  have hstep2 : serveStep ⟨FLVMuxer.init w hgt 10 none none, false⟩
      (unitsBytes [(true, p2)]) = (⟨FLVMuxer.init w hgt 10 none none, false⟩, []) :=
    serveStep_skip _ rfl _ (scan_markers_single_p p2 hc2 ht2)
  have hmux3 := mux_frame_sps_pps_idr (FLVMuxer.init w hgt 10 none none)
    sps pps idr hcs hcp hci hts htp hti rfl
  have hstep3 : serveStep ⟨FLVMuxer.init w hgt 10 none none, false⟩
      (unitsBytes [(true, sps), (true, pps), (true, idr)]) =
      (⟨{ FLVMuxer.init w hgt 10 none none with
            sps := some sps, pps := some pps, has_sps_pps := true,
            timestamp := 100 }, true⟩,
       create_tag 9 (0x17 :: 0x00 :: 0 :: 0 :: 0 :: create_avc_decoder_config sps pps) 0 ++
         create_tag 9 (0x17 :: 0x01 :: 0 :: 0 :: 0 :: (be32 idr.length ++ idr)) 0) := by
    rw [serveStep, scan_markers_sps_pps_idr sps pps idr hcs hcp hci hts htp hti]
    simp only [Bool.not_true, Bool.not_false, Bool.and_false, Bool.false_and,
      Bool.false_eq_true, if_false]
    rw [mux_frame, hmux3]
    simp [create_tag_isEmpty, create_tag_ne_nil, FLVMuxer.init]
  have hnf4 : (truthyB ({ FLVMuxer.init w hgt 10 none none with
      sps := some sps, pps := some pps, has_sps_pps := true,
      timestamp := 100 } : FLVMuxer).sps &&
      truthyB ({ FLVMuxer.init w hgt 10 none none with
        sps := some sps, pps := some pps, has_sps_pps := true,
        timestamp := 100 } : FLVMuxer).pps &&
      !({ FLVMuxer.init w hgt 10 none none with
        sps := some sps, pps := some pps, has_sps_pps := true,
        timestamp := 100 } : FLVMuxer).has_sps_pps) = false := by
    simp
  have hmux4 := mux_frame_single_p
    ({ FLVMuxer.init w hgt 10 none none with
        sps := some sps, pps := some pps, has_sps_pps := true,
        timestamp := 100 } : FLVMuxer) true p4 hc4 (Or.inl rfl)
    (by simp only [List.headD_eq_head?_getD] at ht4 ⊢; omega)
    (by simp only [List.headD_eq_head?_getD] at ht4 ⊢; omega)
    (by simp only [List.headD_eq_head?_getD] at ht4 ⊢; omega)
    hnf4
  have hstep4 : serveStep ⟨{ FLVMuxer.init w hgt 10 none none with
        sps := some sps, pps := some pps, has_sps_pps := true,
        timestamp := 100 }, true⟩ (unitsBytes [(true, p4)]) =
      (⟨{ FLVMuxer.init w hgt 10 none none with
            sps := some sps, pps := some pps, has_sps_pps := true,
            timestamp := 200 }, true⟩,
       create_tag 9 (0x27 :: 0x01 :: 0 :: 0 :: 0 :: (be32 p4.length ++ p4)) 100) := by
    rw [serveStep]
    simp only [Bool.not_true, Bool.false_and, Bool.false_eq_true, if_false]
    rw [mux_frame, hmux4]
    simp [create_tag_isEmpty, create_tag_ne_nil, FLVMuxer.init]
  rw [serveRun_cons, hstep1]
  dsimp only
  rw [serveRun_cons, hstep2]
  dsimp only
  rw [serveRun_cons, hstep3]
  dsimp only
  rw [serveRun_cons, hstep4]
  dsimp only
  rw [serveRun_nil]

/-- Witness for C1 at concrete payloads. -/
theorem flv_fresh_session_keyframe_gate_witness :
    (cleanPayload [0x41, 2] = true ∧ [0x41, 2].headD 0 &&& 0x1F = 1 ∧
     cleanPayload [0x67, 0x64, 0, 0x1f] = true ∧
     [0x67, 0x64, 0, 0x1f].headD 0 &&& 0x1F = 7 ∧
     cleanPayload [0x68, 0xEE] = true ∧ [0x68, 0xEE].headD 0 &&& 0x1F = 8 ∧
     cleanPayload [0x65, 0x88] = true ∧ [0x65, 0x88].headD 0 &&& 0x1F = 5 ∧
     cleanPayload [0x41, 0x9A] = true ∧ [0x41, 0x9A].headD 0 &&& 0x1F = 1) ∧
    (serveRun ⟨FLVMuxer.init 640 480 10 none none, false⟩
        [unitsBytes [(true, [0x41, 2])], unitsBytes [(true, [0x41, 2])],
         unitsBytes [(true, [0x67, 0x64, 0, 0x1f]), (true, [0x68, 0xEE]),
           (true, [0x65, 0x88])],
         unitsBytes [(true, [0x41, 0x9A])]]).2 =
      [[], [],
       create_tag 9 (0x17 :: 0x00 :: 0 :: 0 :: 0 ::
           create_avc_decoder_config [0x67, 0x64, 0, 0x1f] [0x68, 0xEE]) 0 ++
         create_tag 9 (0x17 :: 0x01 :: 0 :: 0 :: 0 ::
           (be32 ([0x65, 0x88] : List Nat).length ++ [0x65, 0x88])) 0,
       create_tag 9 (0x27 :: 0x01 :: 0 :: 0 :: 0 ::
         (be32 ([0x41, 0x9A] : List Nat).length ++ [0x41, 0x9A])) 100] :=
  ⟨by decide,
    flv_fresh_session_keyframe_gate 640 480 [0x41, 2] [0x41, 2]
      [0x67, 0x64, 0, 0x1f] [0x68, 0xEE] [0x65, 0x88] [0x41, 0x9A]
      (by decide) (by decide) (by decide) (by decide) (by decide) (by decide)
      (by decide) (by decide) (by decide) (by decide) (by decide) (by decide)
      (by decide)⟩

/-! ## MQTTVideoResponder (lines 416-753) -/

/-- Python `substr in s` on strings. -/
def strContainsAux (pat : List Char) : List Char → Bool
  | [] => pat.isPrefixOf ([] : List Char)
  | c :: rest => pat.isPrefixOf (c :: rest) || strContainsAux pat rest

def strContains (s substr : String) : Bool :=
  strContainsAux substr.toList s.toList

/-- Mutable state of `MQTTVideoResponder` (constructor lines 423-431):
the handled-msgid set (modelled as a list with membership), the last
cleanup time, and the paused flag. -/
structure RespState where
  handled_msgids : List String
  msgid_cleanup_time : Nat
  streaming_paused : Bool
deriving DecidableEq, Repr

/-- `MQTTVideoResponder.__init__` (lines 423-431). -/
def respInit : RespState := ⟨[], 0, false⟩

/-- One outbound PUBLISH on the pub/sub channel: the report JSON fields
built by the responder (`type`, `action`, `timestamp`, `msgid`, `state`,
`code`, `msg`; `data` is always `None` and omitted). `timestamp` carries
the abstract clock value passed in for `time.time()`. -/
structure MqttReport where
  topic : String
  msgType : String
  action : String
  timestamp : Nat
  msgid : String
  state : String
  code : Nat
  msg : String
deriving DecidableEq, Repr

def report_topic_of (model_id device_id : String) : String :=
  "anycubic/anycubicCloud/v1/printer/public/" ++ model_id ++ "/" ++ device_id ++
    "/video/report"

/-- `MQTTVideoResponder._send_video_response(ssl_sock, action, msgid)`
(lines 643-671): update the paused flag, then publish one report whose
`state` mirrors gkcam (`pushStopped` for stop, `initSuccess` otherwise)
with a fresh UUID msgid (`fresh_id`). Note: the fresh msgid is NOT added
to `handled_msgids`. -/
def send_video_response (st : RespState) (action : String) (now : Nat)
    (fresh_id model_id device_id : String) : RespState × List MqttReport :=
  let paused :=
    if action = "stopCapture" then true
    else if action = "startCapture" then false
    else st.streaming_paused
  let state := if action = "stopCapture" then "pushStopped" else "initSuccess"
  ({ st with streaming_paused := paused },
   [{ topic := report_topic_of model_id device_id, msgType := "video",
      action := action, timestamp := now, msgid := fresh_id, state := state,
      code := 200, msg := "" }])

/-- `MQTTVideoResponder._send_counter_report(ssl_sock)` (lines 719-738):
record the fresh msgid into `handled_msgids` ("Track so we don't counter
our own report"), then publish a `startCapture`/`initSuccess` report. -/
def send_counter_report (st : RespState) (now : Nat)
    (fresh_id model_id device_id : String) : RespState × List MqttReport :=
  ({ st with handled_msgids := fresh_id :: st.handled_msgids },
   [{ topic := report_topic_of model_id device_id, msgType := "video",
      action := "startCapture", timestamp := now, msgid := fresh_id,
      state := "initSuccess", code := 200, msg := "" }])

/-- The PUBLISH dispatch of `MQTTVideoResponder._handle_packet`
(lines 599-641), applied to one successfully parsed PUBLISH frame: `topic`
is the frame's topic, and `action`/`msgid` are `msg.get('action')` /
`msg.get('msgid')` of the decoded JSON payload (JSON decoding itself is
abstracted away). `now` models `time.time()` and `fresh_id` the
`uuid.uuid4()` drawn by any send inside this call. -/
def handle_publish (st : RespState) (now : Nat) (topic : String)
    (action msgid : Option String) (fresh_id model_id device_id : String) :
    RespState × List MqttReport :=
  if strContains topic "/video" && !strContains topic "/report" then
    match action with
    | some a =>
        if a = "startCapture" ∨ a = "stopCapture" then
          if (match msgid with
              | some m => decide (m ≠ "") && st.handled_msgids.contains m
              | none => false) then
            (st, [])
          else
            let st1 :=
              match msgid with
              | some m =>
                  if m ≠ "" then
                    let st' :=
                      if now - st.msgid_cleanup_time > 60 then
                        { st with handled_msgids := [], msgid_cleanup_time := now }
                      else st
                    { st' with handled_msgids := m :: st'.handled_msgids }
                  else st
              | none => st
            send_video_response st1 a now fresh_id model_id device_id
        else (st, [])
    | none => (st, [])
  else if strContains topic "/video/report" then
    match action, msgid with
    | some a, some m =>
        if a = "stopCapture" ∧ m ≠ "" ∧ st.handled_msgids.contains m = false then
          send_counter_report st now fresh_id model_id device_id
        else (st, [])
    | _, _ => (st, [])
  else (st, [])

/-- C6: two PUBLISH frames delivered on a command (non-report) video topic
carrying the same non-empty msgid and action "startCapture" produce exactly
one outbound report: the first publishes one, the second is skipped as a
duplicate (the dedup membership test at line 608 runs before the periodic
cleanup at lines 614-617, so no time gap can revive the duplicate). -/
theorem mqtt_command_dedup (st : RespState) (t1 t2 : Nat)
    (topic m f1 f2 model_id device_id : String)
    (hm : m ≠ "") (hmem : st.handled_msgids.contains m = false)
    (htop1 : strContains topic "/video" = true)
    (htop2 : strContains topic "/report" = false) :
    (handle_publish st t1 topic (some "startCapture") (some m) f1
        model_id device_id).2.length = 1 ∧
    (handle_publish (handle_publish st t1 topic (some "startCapture") (some m) f1
          model_id device_id).1
        t2 topic (some "startCapture") (some m) f2 model_id device_id).2 = [] := by
  have hmem' : m ∉ st.handled_msgids := by
    intro hin
    have h2 : List.elem m st.handled_msgids = true := List.elem_iff.mpr hin
    rw [show st.handled_msgids.contains m = List.elem m st.handled_msgids from rfl]
      at hmem
    rw [hmem] at h2
    exact Bool.false_ne_true h2
  by_cases hcl : t1 - st.msgid_cleanup_time > 60
  · constructor
    · simp [handle_publish, htop1, htop2, hm, hmem', hcl, send_video_response]
    · simp [handle_publish, htop1, htop2, hm, hmem', hcl, send_video_response]
  · constructor
    · simp [handle_publish, htop1, htop2, hm, hmem', hcl, send_video_response]
    · simp [handle_publish, htop1, htop2, hm, hmem', hcl, send_video_response]

/-- Witness for C6 at a concrete command topic and msgid. -/
theorem mqtt_command_dedup_witness :
    (("m-1" : String) ≠ "" ∧
     respInit.handled_msgids.contains "m-1" = false ∧
     strContains "anycubic/anycubicCloud/v1/web/printer/20021/abc/video" "/video" = true ∧
     strContains "anycubic/anycubicCloud/v1/web/printer/20021/abc/video" "/report" = false) ∧
    (handle_publish respInit 0 "anycubic/anycubicCloud/v1/web/printer/20021/abc/video"
        (some "startCapture") (some "m-1") "u-1" "20021" "abc").2.length = 1 ∧
    (handle_publish
        (handle_publish respInit 0 "anycubic/anycubicCloud/v1/web/printer/20021/abc/video"
          (some "startCapture") (some "m-1") "u-1" "20021" "abc").1
        5 "anycubic/anycubicCloud/v1/web/printer/20021/abc/video"
        (some "startCapture") (some "m-1") "u-2" "20021" "abc").2 = [] :=
  ⟨⟨by decide, by decide, by decide, by decide⟩,
    mqtt_command_dedup respInit 0 5 "anycubic/anycubicCloud/v1/web/printer/20021/abc/video"
      "m-1" "u-1" "u-2" "20021" "abc" (by decide) (by decide) (by decide) (by decide)⟩

/-- C5 (code bug): the responder reacts to its own stopCapture report.
Handling a stopCapture command publishes a report with a fresh msgid via
`_send_video_response`, which — unlike `_send_counter_report` and the two
keepalive senders — never records that msgid in `handled_msgids`. The
responder is subscribed to the report topic (line 504), so when the broker
echoes that report back, the check at line 633 ("a stopCapture report that
we didn't send") fails to recognize it and `_send_counter_report` publishes
a counter-report to the responder's own traffic. -/
theorem mqtt_responder_counters_own_stop_report :
    (handle_publish respInit 0 "anycubic/anycubicCloud/v1/web/printer/20021/abc/video"
        (some "stopCapture") (some "cmd-1") "rep-1" "20021" "abc").2 =
      [{ topic := report_topic_of "20021" "abc", msgType := "video",
         action := "stopCapture", timestamp := 0, msgid := "rep-1",
         state := "pushStopped", code := 200, msg := "" }] ∧
    (handle_publish respInit 0 "anycubic/anycubicCloud/v1/web/printer/20021/abc/video"
        (some "stopCapture") (some "cmd-1") "rep-1" "20021" "abc").1.handled_msgids.contains
      "rep-1" = false ∧
    (handle_publish
        (handle_publish respInit 0 "anycubic/anycubicCloud/v1/web/printer/20021/abc/video"
          (some "stopCapture") (some "cmd-1") "rep-1" "20021" "abc").1
        1 (report_topic_of "20021" "abc")
        (some "stopCapture") (some "rep-1") "rep-2" "20021" "abc").2 =
      [{ topic := report_topic_of "20021" "abc", msgType := "video",
         action := "startCapture", timestamp := 1, msgid := "rep-2",
         state := "initSuccess", code := 200, msg := "" }] := by
  refine ⟨?_, ?_, ?_⟩ <;> decide

/-! ## C7: FIFO trimming in the standalone FLV server (lines 8140-8172) -/

/-- Shared state of the standalone FLV server as seen by two concurrent
client threads: the shared `h264_buffer` list plus each thread's local
`last_idx` read cursor (a local variable of `serve_client`, lines
8141-8170 — nothing in the code ever writes another thread's cursor). -/
structure FlvFifoWorld where
  h264_buffer : List (List Nat)
  cursorA : Nat
  cursorB : Nat
deriving DecidableEq, Repr

/-- One pass of client A's loop body (lines 8144-8172): if the observed
buffer length exceeds its cursor, read `h264_buffer[last_idx:current_len]`
and advance the cursor to `current_len`; then, if `current_len > 100`,
`del h264_buffer[:current_len - 50]` and set this client's own
`last_idx = 50`. Returns the new world and the frames this client read.
Client B's cursor is untouched, as in the code. -/
def clientAIteration (wrld : FlvFifoWorld) : FlvFifoWorld × List (List Nat) :=
  let current_len := wrld.h264_buffer.length
  if current_len > wrld.cursorA then
    let frames := wrld.h264_buffer.drop wrld.cursorA
    if current_len > 100 then
      ({ h264_buffer := wrld.h264_buffer.drop (current_len - 50),
         cursorA := 50, cursorB := wrld.cursorB }, frames)
    else
      ({ wrld with cursorA := current_len }, frames)
  else (wrld, [])

set_option maxRecDepth 40000 in
/-- C7 counterexample: 150 buffered units, client A's cursor at 10, client
B's cursor at 90. After A's iteration trims the FIFO to the newest 50
units, B's cursor (90) is unchanged and exceeds the trimmed buffer's
length (50) — it is not "clamped to a valid in-range position" — and the
retained unit that was at old index 100 lies behind B's cursor, so B can
never read it even though B had not read it and it is still retained. -/
theorem fifo_trim_not_clamped :
    (clientAIteration ⟨(List.range 150).map (fun n => [n]), 10, 90⟩).1.h264_buffer.length
        = 50 ∧
    (clientAIteration ⟨(List.range 150).map (fun n => [n]), 10, 90⟩).1.cursorB = 90 ∧
    ¬ ((clientAIteration ⟨(List.range 150).map (fun n => [n]), 10, 90⟩).1.cursorB ≤
        (clientAIteration ⟨(List.range 150).map (fun n => [n]), 10, 90⟩).1.h264_buffer.length) ∧
    [100] ∈ (clientAIteration ⟨(List.range 150).map (fun n => [n]), 10, 90⟩).1.h264_buffer ∧
    [100] ∉ ((clientAIteration ⟨(List.range 150).map (fun n => [n]), 10, 90⟩).1.h264_buffer.drop
        (clientAIteration ⟨(List.range 150).map (fun n => [n]), 10, 90⟩).1.cursorB) := by
  refine ⟨?_, ?_, ?_, ?_, ?_⟩ <;> decide

/-- C7 (amended): when the FIFO exceeds 100 units, the trimming client
keeps the newest 50 units, resets only its own cursor to 50 (valid: equal
to the new length, and it has just read everything up to the trim), and
leaves the other client's cursor unchanged — the code clamps no other
cursor, so other sessions may point past the buffer or skip retained
unread units. -/
theorem fifo_trim_behavior (wrld : FlvFifoWorld)
    (hlen : 100 < wrld.h264_buffer.length)
    (hcur : wrld.cursorA < wrld.h264_buffer.length) :
    (clientAIteration wrld).1.h264_buffer =
        wrld.h264_buffer.drop (wrld.h264_buffer.length - 50) ∧
    (clientAIteration wrld).1.h264_buffer.length = 50 ∧
    (clientAIteration wrld).1.cursorA = 50 ∧
    (clientAIteration wrld).1.cursorA ≤ (clientAIteration wrld).1.h264_buffer.length ∧
    (clientAIteration wrld).1.cursorB = wrld.cursorB ∧
    (clientAIteration wrld).2 = wrld.h264_buffer.drop wrld.cursorA := by
  have h1 : wrld.h264_buffer.length > wrld.cursorA := hcur
  have h2 : wrld.h264_buffer.length > 100 := hlen
  simp only [clientAIteration]
  rw [if_pos h1, if_pos h2]
  refine ⟨rfl, ?_, rfl, ?_, rfl, rfl⟩
  · simp only [List.length_drop]
    omega
  · simp only [List.length_drop]
    omega

set_option maxRecDepth 40000 in
/-- Witness for C7 (amended) at the 150-unit scenario. -/
theorem fifo_trim_behavior_witness :
    (100 < ((List.range 150).map (fun n => [n])).length ∧
      10 < ((List.range 150).map (fun n => [n])).length) ∧
    (clientAIteration ⟨(List.range 150).map (fun n => [n]), 10, 90⟩).1.cursorA = 50 ∧
    (clientAIteration ⟨(List.range 150).map (fun n => [n]), 10, 90⟩).1.cursorB = 90 :=
  ⟨⟨by decide, by decide⟩,
    (fifo_trim_behavior ⟨(List.range 150).map (fun n => [n]), 10, 90⟩
      (by decide) (by decide)).2.2.1,
    (fifo_trim_behavior ⟨(List.range 150).map (fun n => [n]), 10, 90⟩
      (by decide) (by decide)).2.2.2.2.1⟩

/-! ## C8: responder lifecycle tied to the FLV client count -/

/-- The responder-relevant state of `StreamerApp`: the FLV client count
(`flv_client_count`, guarded by `flv_client_lock`) and whether each
responder subprocess handle is non-`None` (`rpc_subprocess`,
`mqtt_subprocess`), i.e. the responder is running. Successful spawn and
terminate are assumed (failures print and leave the handle `None`). -/
structure ServerState where
  flv_client_count : Nat
  rpc_running : Bool
  mqtt_running : Bool
deriving DecidableEq, Repr

/-- Initial state: no clients, no responder subprocesses. -/
def serverInit : ServerState := ⟨0, false, false⟩

/-- FLV client connect (lines 4023-4053): increment the count under the
lock; when it becomes 1, spawn both responder subprocesses (each spawn is
guarded by `is None`, so an already-running responder stays running). -/
def connectStep (s : ServerState) : ServerState :=
  let c := s.flv_client_count + 1
  if c = 1 then { flv_client_count := c, rpc_running := true, mqtt_running := true }
  else { s with flv_client_count := c }

/-- FLV client disconnect (`finally`, lines 4142-4176): decrement the
count; when it reaches 0, terminate both subprocesses and reset the
handles to `None`. -/
def disconnectStep (s : ServerState) : ServerState :=
  let c := s.flv_client_count - 1
  if c = 0 then { flv_client_count := c, rpc_running := false, mqtt_running := false }
  else { s with flv_client_count := c }

/-- States reachable from startup. Every disconnect happens in the
`finally` of a serve call whose start performed the matching connect, so a
disconnect only occurs while the count is positive. -/
inductive ReachableServer : ServerState → Prop
  | init : ReachableServer serverInit
  | connect {s : ServerState} : ReachableServer s → ReachableServer (connectStep s)
  | disconnect {s : ServerState} : ReachableServer s → 0 < s.flv_client_count →
      ReachableServer (disconnectStep s)

theorem reachable_invariant (s : ServerState) (hs : ReachableServer s) :
    (s.rpc_running = true ∧ s.mqtt_running = true) ↔ 0 < s.flv_client_count := by
  induction hs with
  | init => simp [serverInit]
  | connect hs ih =>
      rename_i t
      rw [connectStep]
      by_cases hc : t.flv_client_count + 1 = 1
      · simp [hc]
      · have hpos : 0 < t.flv_client_count := by omega
        simp only [hc, if_false]
        simpa [hpos] using ih.mpr hpos
  | disconnect hs hpos ih =>
      rename_i t
      rw [disconnectStep]
      by_cases hc : t.flv_client_count - 1 = 0
      · simp [hc]
      · have hpos2 : 0 < t.flv_client_count - 1 := by omega
        simp only [hc, if_false]
        simpa [hpos2] using ih.mpr hpos

/-- C8: in every reachable server state the two impersonation responders
are running iff the FLV client count is positive; the 0→1 connect starts
both, the 1→0 disconnect stops both, and connects from a positive count or
disconnects leaving a positive count change neither responder. -/
theorem responder_lifecycle (s : ServerState) (hs : ReachableServer s) :
    ((s.rpc_running = true ∧ s.mqtt_running = true) ↔ 0 < s.flv_client_count) ∧
    (s.flv_client_count = 0 →
      (connectStep s).rpc_running = true ∧ (connectStep s).mqtt_running = true) ∧
    (s.flv_client_count = 1 →
      (disconnectStep s).rpc_running = false ∧ (disconnectStep s).mqtt_running = false) ∧
    (0 < s.flv_client_count →
      (connectStep s).rpc_running = s.rpc_running ∧
      (connectStep s).mqtt_running = s.mqtt_running) ∧
    (2 ≤ s.flv_client_count →
      (disconnectStep s).rpc_running = s.rpc_running ∧
      (disconnectStep s).mqtt_running = s.mqtt_running) := by
  refine ⟨reachable_invariant s hs, ?_, ?_, ?_, ?_⟩
  · intro h0
    rw [connectStep]
    simp [h0]
  · intro h1
    rw [disconnectStep]
    simp [h1]
  · intro hpos
    rw [connectStep]
    have hc : ¬ s.flv_client_count + 1 = 1 := by omega
    simp [hc]
  · intro h2
    rw [disconnectStep]
    have hc : ¬ s.flv_client_count - 1 = 0 := by omega
    simp [hc]

/-- Witness for C8 at the initial state. -/
theorem responder_lifecycle_witness :
    ReachableServer serverInit ∧
    (((serverInit.rpc_running = true ∧ serverInit.mqtt_running = true) ↔
        0 < serverInit.flv_client_count) ∧
      (serverInit.flv_client_count = 0 →
        (connectStep serverInit).rpc_running = true ∧
        (connectStep serverInit).mqtt_running = true) ∧
      (serverInit.flv_client_count = 1 →
        (disconnectStep serverInit).rpc_running = false ∧
        (disconnectStep serverInit).mqtt_running = false) ∧
      (0 < serverInit.flv_client_count →
        (connectStep serverInit).rpc_running = serverInit.rpc_running ∧
        (connectStep serverInit).mqtt_running = serverInit.mqtt_running) ∧
      (2 ≤ serverInit.flv_client_count →
        (disconnectStep serverInit).rpc_running = serverInit.rpc_running ∧
        (disconnectStep serverInit).mqtt_running = serverInit.mqtt_running)) :=
  ⟨ReachableServer.init, responder_lifecycle serverInit ReachableServer.init⟩

/-! ## C9: snapshot endpoint error behavior (lines 3981-4006, 7651-7654) -/

/-- `str.encode()` for the ASCII header strings used here. -/
def asciiBytes (s : String) : List Nat := s.toList.map Char.toNat

/-- `StreamerApp._serve_503` (lines 7651-7654). -/
def serve_503_bytes : List Nat :=
  asciiBytes "HTTP/1.1 503 Service Unavailable\r\nContent-Length: 19\r\nConnection: close\r\n\r\nService Unavailable"

/-- The 200 response of `_serve_snapshot` (lines 3992-4000):
`response.encode() + frame`, with the `Content-Length` interpolation as in
the f-string. -/
def http200_snapshot (frame : List Nat) : List Nat :=
  asciiBytes "HTTP/1.1 200 OK\r\nContent-Type: image/jpeg\r\nContent-Length: " ++
    asciiBytes (toString frame.length) ++
    asciiBytes "\r\nCache-Control: no-cache\r\nConnection: close\r\n\r\n" ++
    frame

/-- `StreamerApp._serve_snapshot` (lines 3981-4000), as a function of the
frame returned by the bounded wait (`_get_snapshot_*`, up to ~2s): `if not
frame: _serve_503; return` else send the single 200 response and close.
Returns the bytes written to the client. -/
def serve_snapshot (frame : Option (List Nat)) : List Nat :=
  if truthyB frame then http200_snapshot (frame.getD []) else serve_503_bytes

theorem http200_ne_503 (frame : List Nat) :
    http200_snapshot frame ≠ serve_503_bytes := by
  intro heq
  have h9 : (http200_snapshot frame)[9]? = serve_503_bytes[9]? := by rw [heq]
  rw [http200_snapshot] at h9
  rw [List.append_assoc, List.append_assoc] at h9
  rw [List.getElem?_append_left (by decide :
    (9 : Nat) < (asciiBytes "HTTP/1.1 200 OK\r\nContent-Type: image/jpeg\r\nContent-Length: ").length)] at h9
  have hL : (asciiBytes "HTTP/1.1 200 OK\r\nContent-Type: image/jpeg\r\nContent-Length: ")[9]? =
      some 50 := by decide
  have hR : serve_503_bytes[9]? = some 53 := by decide
  rw [hL, hR] at h9
  simp at h9

/-- C9: the snapshot endpoint responds with the 503 response (and nothing
else) exactly when no frame became available within the bounded wait
(Python falsiness: `None` or an empty byte string); when a frame is
available it responds exactly once with the single `200 OK image/jpeg`
response whose body is that frame. -/
theorem snapshot_error_behavior (frame : Option (List Nat)) :
    (serve_snapshot frame = serve_503_bytes ↔ truthyB frame = false) ∧
    (∀ f : List Nat, frame = some f → f ≠ [] →
      serve_snapshot frame = http200_snapshot f ∧
      serve_snapshot frame =
        (asciiBytes "HTTP/1.1 200 OK\r\nContent-Type: image/jpeg\r\nContent-Length: " ++
          asciiBytes (toString f.length) ++
          asciiBytes "\r\nCache-Control: no-cache\r\nConnection: close\r\n\r\n") ++ f) := by
  constructor
  · constructor
    · intro heq
      by_cases ht : truthyB frame = true
      · rw [serve_snapshot, if_pos ht] at heq
        exact absurd heq (http200_ne_503 _)
      · simpa using ht
    · intro hf
      rw [serve_snapshot, hf]
      simp
  · intro f hf hne
    subst hf
    have ht : truthyB (some f) = true := by
      simp [truthyB, List.isEmpty_iff, hne]
    rw [serve_snapshot, if_pos ht]
    constructor
    · rfl
    · rw [http200_snapshot]
      simp [List.append_assoc]

/-- Witness for C9: a concrete 3-byte frame gets the 200 response; no
frame gets the 503. -/
theorem snapshot_error_behavior_witness :
    (some [9, 9, 9] = some [9, 9, 9] ∧ ([9, 9, 9] : List Nat) ≠ [] ∧
      truthyB none = false) ∧
    serve_snapshot (some [9, 9, 9]) = http200_snapshot [9, 9, 9] ∧
    serve_snapshot none = serve_503_bytes :=
  ⟨⟨rfl, by decide, rfl⟩,
    ((snapshot_error_behavior (some [9, 9, 9])).2 [9, 9, 9] rfl (by decide)).1,
    (snapshot_error_behavior none).1.mpr rfl⟩
